import Mathlib

/-!
# xsecurelock: the X11 authentication front-end (`helpers/auth_x11.c`)

A shallow embedding of the prompt engine (`BumpDisplayMarker`, `Prompt`) and of
the packet loop of `Authenticate`, followed by theorems about them.

Conventions of the embedding.

* A byte is a `Nat` below 256.  `read` stores `byte % 256` into `inputbuf`.
  The comparisons the source makes on `char` values give the same answer for
  signed and unsigned `char` on bytes 0..255 (a byte above 127 matches no case
  label and fails `inputbuf <= '\037'` either way), so a byte is compared by
  its unsigned value.
* An array is the map from offsets (counted from its first element) to
  bytes, together with its declared size; a store past the declared size is
  therefore visible in the model instead of being dropped.
* `time_t` and `int` values are unbounded integers.
* The environment is explicit: the wake-ups of `select` (its return value,
  the following `time(NULL)` reading, the return value of `read` and the byte
  it delivered), the stream of `rand()` outputs, and the libc function `mblen`
  (a parameter, as it depends on the locale).
* `DisplayMessage`, `PlaySound`, `Log`, `MLOCK_PAGE`, `SwitchKeyboardLayout`,
  `WaitForKeypress` and the draining of X11 events do not change any variable
  modelled here and are left out; `priv.ev` is only written by that draining
  and is left out with it.
-/

namespace XSecureLock

/-! ## Constants -/

/-- Number of dancers in the disco password display. -/
def DISCO_PASSWORD_DANCERS : Nat := 5

/-- Length of the "paranoid password display". -/
def PARANOID_PASSWORD_LENGTH : Nat := 1 <<< DISCO_PASSWORD_DANCERS

/-- Minimum distance the cursor shall move on keypress. -/
def PARANOID_PASSWORD_MIN_CHANGE : Nat := 5

/-- The size of the buffer to store the password in. Not NUL terminated. -/
def PWBUF_SIZE : Nat := 256

/-- The size of the buffer to use for display, with space for cursor and NUL. -/
def DISPLAYBUF_SIZE : Nat := PWBUF_SIZE + 2

/-- The bytes of `disco_combiner`, the UTF-8 string `" ♪ "`. -/
def disco_combiner : List Nat := [0x20, 0xE2, 0x99, 0xAA, 0x20]

/-- The bytes of the two `disco_dancers`, `"┏(･o･)┛"` and `"┗(･o･)┓"`. -/
def disco_dancers : List (List Nat) :=
  [ [0xE2, 0x94, 0x8F, 0x28, 0xEF, 0xBD, 0xA5, 0x6F, 0xEF, 0xBD, 0xA5, 0x29, 0xE2, 0x94, 0x9B],
    [0xE2, 0x94, 0x97, 0x28, 0xEF, 0xBD, 0xA5, 0x6F, 0xEF, 0xBD, 0xA5, 0x29, 0xE2, 0x94, 0x93] ]

/-- The cursor character displayed at the end of the masked password input, `"_"`. -/
def cursor : List Nat := [0x5F]

/-! ## Memory helpers -/

/-- The `n` bytes of `buf` starting at offset `off`. -/
def bytes (buf : Nat → Nat) (off n : Nat) : List Nat :=
  (List.range n).map (fun i => buf (off + i))

/-- The store `buf[i] = v`. -/
def store (buf : Nat → Nat) (i v : Nat) : Nat → Nat :=
  fun j => if j = i then v else buf j

/-- The call `memcpy(dst + off, src, n)`; a byte of `src` past its end reads as 0. -/
def memcpy (dst : Nat → Nat) (off : Nat) (src : List Nat) (n : Nat) : Nat → Nat :=
  fun j => if off ≤ j ∧ j < off + n then src.getD (j - off) 0 else dst j

/-- The call `memset(dst, c, n)`. -/
def memset (dst : Nat → Nat) (c n : Nat) : Nat → Nat :=
  fun j => if j < n then c else dst j

/-- The C string held by a byte sequence: the bytes before the first NUL. -/
def cstr (bs : List Nat) : List Nat := bs.takeWhile (fun b => b != 0)

/-! ## BumpDisplayMarker -/

/-- The function `BumpDisplayMarker(pos)`, run on the stream of `rand()` outputs.
Each round of the `for (;;)` loop draws one output; the result is the accepted
position and the outputs left, or `none` when the outputs supplied are all
rejected (the loop is still running). -/
def BumpDisplayMarker (pos : Int) : List Nat → Option (Int × List Nat)
  | [] => none
  | r :: rs =>
    let new_pos : Int := 1 + (r : Int) % ((PARANOID_PASSWORD_LENGTH : Int) - 1)
    if (PARANOID_PASSWORD_MIN_CHANGE : Int) ≤ |new_pos - pos| then some (new_pos, rs)
    else BumpDisplayMarker pos rs

/-- The number of `rand()` outputs in `0..RAND_MAX` that the expression
`1 + rand() % (PARANOID_PASSWORD_LENGTH - 1)` maps to `v`. -/
def randOutputsFor (RAND_MAX : Nat) (v : Nat) : Nat :=
  Nat.count (fun r => 1 + r % (PARANOID_PASSWORD_LENGTH - 1) = v) (RAND_MAX + 1)

/-- The permitted results of `BumpDisplayMarker(pos)`: the values in
`1..PARANOID_PASSWORD_LENGTH-1` at distance at least `PARANOID_PASSWORD_MIN_CHANGE`. -/
def permitted (pos : Int) (p : Int) : Prop :=
  1 ≤ p ∧ p ≤ (PARANOID_PASSWORD_LENGTH : Int) - 1 ∧ (PARANOID_PASSWORD_MIN_CHANGE : Int) ≤ |p - pos|

instance (pos p : Int) : Decidable (permitted pos p) := by
  unfold permitted; exact inferInstance

/-! ## The prompt engine -/

/-- The process-wide settings `Prompt` consults.  The three display switches
are `int`s used only as truth values. -/
structure Settings where
  /-- The maximum time to wait at a prompt for user input in seconds. -/
  prompt_timeout : Int
  /-- Whether password display should hide the length. -/
  paranoid_password : Bool
  /-- Whether the password should be completely hidden. -/
  hide_password_completely : Bool
  /-- Disco mode. -/
  disco : Bool

/-- The local `priv` of `Prompt` (without `ev`).  `pwbuf` has `PWBUF_SIZE`
elements and `displaybuf` has `DISPLAYBUF_SIZE`. -/
structure Priv where
  /-- Input buffer. Not NUL-terminated. -/
  pwbuf : Nat → Nat
  /-- Current input length. -/
  pwlen : Nat
  /-- Display buffer. -/
  displaybuf : Nat → Nat
  /-- Display buffer length. -/
  displaylen : Nat
  /-- The display marker. -/
  displaymarker : Nat
  /-- Character read buffer. -/
  inputbuf : Nat
  /-- Temporary position variable. -/
  prevpos : Nat
  /-- Temporary position variable. -/
  pos : Nat
  /-- Temporary length variable. -/
  len : Int

/-- One pass through `select`, `time` and (when reached) `read` in the inner
loop of `Prompt`: what the environment answered. -/
structure Wakeup where
  /-- The return value of `select`. -/
  nfds : Int
  /-- The return value of `time(NULL)` after it. -/
  now : Int
  /-- The return value of `read(0, &priv.inputbuf, 1)`. -/
  nread : Int
  /-- The byte `read` delivered (when `nread > 0`). -/
  byte : Nat

/-- The loop that counts the characters of the input for the masked display:
`while (priv.pos < priv.pwlen) { ++priv.displaylen; priv.len = mblen(..);
if (priv.len <= 0) break; priv.pos += priv.len; }`.
The first argument bounds the number of rounds; every round that continues
advances `pos` by at least one, so `pwlen - pos` rounds are always enough
(`countChars_enough`). -/
def countChars (mblen : List Nat → Int) (pwbuf : Nat → Nat) (pwlen : Nat) :
    Nat → Nat → Nat → Int → Nat × Nat × Int
  | 0, pos, displaylen, len => (pos, displaylen, len)
  | fuel + 1, pos, displaylen, len =>
    if pos < pwlen then
      let displaylen := displaylen + 1
      let len := mblen (bytes pwbuf pos (pwlen - pos))
      if len ≤ 0 then (pos, displaylen, len)
      else countChars mblen pwbuf pwlen fuel (pos + len.toNat) displaylen len
    else (pos, displaylen, len)

/-- The backward skip of Backspace/Delete:
`while (priv.pos < priv.pwlen) { priv.prevpos = priv.pos; priv.len = mblen(..);
if (priv.len <= 0) break; priv.pos += priv.len; }`.
The first argument bounds the number of rounds, as in `countChars`
(`backwardSkip_enough`). -/
def backwardSkip (mblen : List Nat → Int) (pwbuf : Nat → Nat) (pwlen : Nat) :
    Nat → Nat → Nat → Int → Nat × Nat × Int
  | 0, pos, prevpos, len => (pos, prevpos, len)
  | fuel + 1, pos, prevpos, len =>
    if pos < pwlen then
      let prevpos := pos
      let len := mblen (bytes pwbuf pos (pwlen - pos))
      if len ≤ 0 then (pos, prevpos, len)
      else backwardSkip mblen pwbuf pwlen fuel (pos + len.toNat) prevpos len
    else (pos, prevpos, len)

/-- One round of the disco loop, for dancer number `i` (`bit` is `1 << i`). -/
def discoRound (displaymarker : Nat) (buf : Nat → Nat) (i : Nat) : Nat → Nat :=
  let combiner_length := disco_combiner.length
  let dancer_length := (disco_dancers.getD 0 []).length
  let stride := combiner_length + dancer_length
  let bit := 1 <<< i
  let dancer := disco_dancers.getD (if displaymarker &&& bit ≠ 0 then 1 else 0) []
  let buf := memcpy buf (i * stride) disco_combiner combiner_length
  memcpy buf (i * stride + combiner_length) dancer dancer_length

/-- The rendering at the top of the outer loop of `Prompt`: the branch chosen
by `echo`, `hide_password_completely`, `disco` and `paranoid_password` fills
`displaybuf` and `displaylen` (the masked branch also `pos` and `len`). -/
def render (G : Settings) (mblen : List Nat → Int) (echo : Bool) (blink_state : Bool)
    (priv : Priv) : Priv :=
  if echo then
    let displaybuf :=
      if priv.pwlen ≠ 0 then memcpy priv.displaybuf 0 (bytes priv.pwbuf 0 priv.pwlen) priv.pwlen
      else priv.displaybuf
    let displaylen := priv.pwlen
    let displaybuf := store displaybuf displaylen (if blink_state then 0x20 else cursor.getD 0 0)
    let displaybuf := store displaybuf (displaylen + 1) 0
    { priv with displaybuf := displaybuf, displaylen := displaylen }
  else if G.hide_password_completely then
    { priv with displaylen := 0, displaybuf := store priv.displaybuf 0 0 }
  else if G.disco then
    let combiner_length := disco_combiner.length
    let dancer_length := (disco_dancers.getD 0 []).length
    let stride := combiner_length + dancer_length
    let displaylen :=
      stride * DISCO_PASSWORD_DANCERS * (disco_dancers.getD 0 []).length + disco_combiner.length
    let displaybuf :=
      (List.range DISCO_PASSWORD_DANCERS).foldl (discoRound priv.displaymarker) priv.displaybuf
    let displaybuf := memcpy displaybuf (DISCO_PASSWORD_DANCERS * stride) disco_combiner combiner_length
    let displaybuf := store displaybuf displaylen 0
    { priv with displaybuf := displaybuf, displaylen := displaylen }
  else if G.paranoid_password then
    let displaylen := PARANOID_PASSWORD_LENGTH
    let displaybuf := memset priv.displaybuf 0x5F displaylen
    let displaybuf := store displaybuf priv.displaymarker (if blink_state then 0x7C else 0x2D)
    let displaybuf := store displaybuf displaylen 0
    { priv with displaybuf := displaybuf, displaylen := displaylen }
  else
    let r := countChars mblen priv.pwbuf priv.pwlen priv.pwlen 0 0 priv.len
    let displaylen := r.2.1
    let displaybuf := memset priv.displaybuf 0x2A displaylen
    let displaybuf := store displaybuf displaylen (if blink_state then 0x20 else cursor.getD 0 0)
    let displaybuf := store displaybuf (displaylen + 1) 0
    { priv with pos := r.1, len := r.2.2, displaybuf := displaybuf, displaylen := displaylen }

/-- The variables of `Prompt` that live across wake-ups, at a call of `select`:
`status` is still 0 and `done` is still 0 there.  `rand` is the stream of
`rand()` outputs not drawn yet. -/
structure St where
  /-- The local `priv`. -/
  priv : Priv
  /-- The local `blink_state`. -/
  blink_state : Bool
  /-- The local `deadline`. -/
  deadline : Int
  /-- The `rand()` outputs not drawn yet. -/
  rand : List Nat

/-- What one wake-up leads to. -/
inductive Step where
  /-- The loops go on: `select` is called again in this state. -/
  | cont (s : St)
  /-- `done` was set: the loops are left with this `status` and `*response`
  (`none` when `*response` was not assigned). -/
  | exit (status : Int) (response : Option (List Nat)) (s : St)
  /-- `BumpDisplayMarker` has rejected every `rand()` output supplied. -/
  | starved

/-- One round of the outer loop up to the inner loop: render with the current
`blink_state`, then `blink_state = !blink_state`. -/
def redraw (G : Settings) (mblen : List Nat → Int) (echo : Bool) (s : St) : St :=
  { s with priv := render G mblen echo s.blink_state s.priv, blink_state := !s.blink_state }

/-- The statement `priv.displaymarker = BumpDisplayMarker(priv.displaymarker)`. -/
def bumpMarker (s : St) : Option St :=
  match BumpDisplayMarker (s.priv.displaymarker : Int) s.rand with
  | none => none
  | some (p, rs) => some { s with priv := { s.priv with displaymarker := p.toNat }, rand := rs }

/-- The `switch (priv.inputbuf)` of `Prompt`. -/
def handleKey (mblen : List Nat → Int) (s : St) : Step :=
  let c := s.priv.inputbuf
  if c = 0x08 ∨ c = 0x7F then
    let r := backwardSkip mblen s.priv.pwbuf s.priv.pwlen s.priv.pwlen 0 0 s.priv.len
    let s := { s with priv := { s.priv with pos := r.1, prevpos := r.2.1, len := r.2.2 } }
    if s.priv.prevpos ≠ s.priv.pwlen then
      if s.priv.prevpos = 0 then
        .cont { s with priv := { s.priv with displaymarker := 0, pwlen := s.priv.prevpos } }
      else
        match bumpMarker s with
        | none => .starved
        | some s => .cont { s with priv := { s.priv with pwlen := s.priv.prevpos } }
    else .cont { s with priv := { s.priv with pwlen := s.priv.prevpos } }
  else if c = 0x01 then .cont { s with priv := { s.priv with pwlen := 0 } }
  else if c = 0x13 then .cont s
  else if c = 0x15 then .cont { s with priv := { s.priv with pwlen := 0 } }
  else if c = 0x00 ∨ c = 0x1B then .exit 0 none s
  else if c = 0x0D ∨ c = 0x0A then
    .exit 1 (some (bytes s.priv.pwbuf 0 s.priv.pwlen ++ [0])) s
  else if c ≤ 0x1F then .cont s
  else if s.priv.pwlen < PWBUF_SIZE then
    let s := { s with priv := { s.priv with pwbuf := store s.priv.pwbuf s.priv.pwlen c,
                                            pwlen := s.priv.pwlen + 1 } }
    match bumpMarker s with
    | none => .starved
    | some s => .cont s
  else .exit 0 none s

/-- One round of the inner loop of `Prompt`, from `select` on; when the round
leaves the inner loop without `done` (the blink case), the next round of the
outer loop up to the next `select` is included. -/
def wake (G : Settings) (mblen : List Nat → Int) (echo : Bool) (s : St) (w : Wakeup) : Step :=
  if w.nfds < 0 then .exit 0 none s
  else if w.now > s.deadline then .exit 0 none s
  else
    let s := if s.deadline > w.now + G.prompt_timeout
      then { s with deadline := w.now + G.prompt_timeout } else s
    if w.nfds = 0 then .cont (redraw G mblen echo s)
    else
      let s := { s with blink_state := false, deadline := w.now + G.prompt_timeout }
      if w.nread ≤ 0 then .exit 0 none s
      else handleKey mblen { s with priv := { s.priv with inputbuf := w.byte % 256 } }

/-- The cleanup `memset(&priv, 0, sizeof(priv))` when the store is performed:
every member is zeroed, the arrays over their declared size.  The call is a
plain `memset` of a local that is not read again; `finalMemset` below is the
statement as a build of the program may treat it. -/
def cleanup (priv : Priv) : Priv :=
  { pwbuf := memset priv.pwbuf 0 PWBUF_SIZE
    pwlen := 0
    displaybuf := memset priv.displaybuf 0 DISPLAYBUF_SIZE
    displaylen := 0
    displaymarker := 0
    inputbuf := 0
    prevpos := 0
    pos := 0
    len := 0 }

/-- How a run of `Prompt` on a finite supply of wake-ups stands. -/
inductive Outcome where
  /-- The wake-ups are used up and `Prompt` is waiting in `select`. -/
  | collecting (s : St)
  /-- `Prompt` returned `status`; `response` is what `*response` points to
  (`none` when it was not assigned), `priv` the local after the cleanup,
  `events` and `rand` what is left of the environment. -/
  | returned (status : Int) (response : Option (List Nat)) (priv : Priv)
      (events : List Wakeup) (rand : List Nat)
  /-- `BumpDisplayMarker` has rejected every `rand()` output supplied. -/
  | starved

/-- The loops of `Prompt` from a call of `select` on, followed by the cleanup
and the return. -/
def promptLoop (G : Settings) (mblen : List Nat → Int) (echo : Bool) :
    St → List Wakeup → Outcome
  | s, [] => .collecting s
  | s, w :: ws =>
    match wake G mblen echo s w with
    | .cont s => promptLoop G mblen echo s ws
    | .exit status response s => .returned status response (cleanup s.priv) ws s.rand
    | .starved => .starved

/-- The state of `Prompt` at its first call of `select`: `priv` holds what
the stack held (`priv0`) except for `pwlen = 0` and `displaymarker = 0`, the
deadline is `time(NULL) + prompt_timeout` (`now0` is that reading), and the
first rendering has been done. -/
def promptStart (G : Settings) (mblen : List Nat → Int) (echo : Bool) (priv0 : Priv)
    (now0 : Int) (rand : List Nat) : St :=
  redraw G mblen echo
    { priv := { priv0 with pwlen := 0, displaymarker := 0 }
      blink_state := false
      deadline := now0 + G.prompt_timeout
      rand := rand }

/-- The function `Prompt(msg, response, echo)`.  `msg` only reaches
`DisplayMessage` and is left out. -/
def Prompt (G : Settings) (mblen : List Nat → Int) (echo : Bool) (priv0 : Priv) (now0 : Int)
    (events : List Wakeup) (rand : List Nat) : Outcome :=
  promptLoop G mblen echo (promptStart G mblen echo priv0 now0 rand) events

/-! ## Vocabulary of the statements about `Prompt` -/

/-- A wake-up that delivers a Return byte to the `switch`: `select` reported
input, the deadline in force was not crossed, `read` delivered a byte, and
the byte is `'\r'` or `'\n'`. -/
def isReturnWake (deadline : Int) (w : Wakeup) : Prop :=
  0 < w.nfds ∧ w.now ≤ deadline ∧ 0 < w.nread ∧ (w.byte % 256 = 0x0D ∨ w.byte % 256 = 0x0A)

instance (deadline : Int) (w : Wakeup) : Decidable (isReturnWake deadline w) := by
  unfold isReturnWake; exact inferInstance

/-- A byte that is not a control character: not in `0x00..0x1F` and not `0x7F`. -/
def nonControl (b : Nat) : Prop := 0x20 ≤ b ∧ b < 256 ∧ b ≠ 0x7F

instance (b : Nat) : Decidable (nonControl b) := by
  unfold nonControl; exact inferInstance

/-- Keystrokes in time: at every wake-up `select` reports input, the clock
reading does not cross the deadline then in force (`deadline` at the first,
the previous reading plus `timeout` afterwards), and `read` delivers a byte. -/
def Typed (timeout : Int) : Int → List Wakeup → Prop
  | _, [] => True
  | deadline, w :: ws =>
    0 < w.nfds ∧ w.now ≤ deadline ∧ 0 < w.nread ∧ Typed timeout (w.now + timeout) ws

instance Typed.decidable (timeout : Int) :
    (deadline : Int) → (ws : List Wakeup) → Decidable (Typed timeout deadline ws)
  | _, [] => isTrue trivial
  | deadline, w :: ws => by
    unfold Typed
    have := Typed.decidable timeout (w.now + timeout) ws
    exact inferInstance

/-- The marker after `k` successive calls of `BumpDisplayMarker` starting from
`pos`, with the `rand()` outputs left; `none` when the outputs supplied do not
let all `k` rejection loops end. -/
def bumpN : Nat → Int → List Nat → Option (Int × List Nat)
  | 0, pos, rs => some (pos, rs)
  | k + 1, pos, rs =>
    match BumpDisplayMarker pos rs with
    | none => none
    | some (p, rs) => bumpN k p rs

/-- The buffer is cut into characters by `mblen`: offered the bytes from the
start of a character to the end of the buffer, `mblen` answers the length of
that character, which is positive. -/
def Delimits (mblen : List Nat → Int) : List (List Nat) → Prop
  | [] => True
  | c :: cs => 0 < c.length ∧ mblen (c ++ cs.flatten) = c.length ∧ Delimits mblen cs

instance Delimits.decidable (mblen : List Nat → Int) :
    (cs : List (List Nat)) → Decidable (Delimits mblen cs)
  | [] => isTrue trivial
  | c :: cs => by
    unfold Delimits
    have := Delimits.decidable mblen cs
    exact inferInstance

/-- A model of `mblen` in a UTF-8 locale, for instantiating statements that
take `mblen` as a parameter: the lead byte fixes the length, and the bytes
that follow must be continuation bytes.  (Overlong forms and surrogates are
not told apart.) -/
def mblenUtf8 (bs : List Nat) : Int :=
  match bs with
  | [] => -1
  | b :: rest =>
    let cont (k : Nat) : Bool := k ≤ rest.length ∧ (rest.take k).all (fun c => 0x80 ≤ c ∧ c ≤ 0xBF)
    if b = 0 then 0
    else if b < 0x80 then 1
    else if 0xC2 ≤ b ∧ b ≤ 0xDF then (if cont 1 then 2 else -1)
    else if 0xE0 ≤ b ∧ b ≤ 0xEF then (if cont 2 then 3 else -1)
    else if 0xF0 ≤ b ∧ b ≤ 0xF4 then (if cont 3 then 4 else -1)
    else -1

/-! ## The packet loop of `Authenticate` -/

/-- The packet type codes of `authproto.h`, which is not part of the sources
at hand; they are taken as parameters. -/
structure PacketTypes where
  /-- The code `PTYPE_INFO_MESSAGE`. -/
  PTYPE_INFO_MESSAGE : Int
  /-- The code `PTYPE_ERROR_MESSAGE`. -/
  PTYPE_ERROR_MESSAGE : Int
  /-- The code `PTYPE_PROMPT_LIKE_USERNAME`. -/
  PTYPE_PROMPT_LIKE_USERNAME : Int
  /-- The code `PTYPE_PROMPT_LIKE_PASSWORD`. -/
  PTYPE_PROMPT_LIKE_PASSWORD : Int
  /-- The code `PTYPE_RESPONSE_LIKE_USERNAME`. -/
  PTYPE_RESPONSE_LIKE_USERNAME : Int
  /-- The code `PTYPE_RESPONSE_LIKE_PASSWORD`. -/
  PTYPE_RESPONSE_LIKE_PASSWORD : Int
  /-- The code `PTYPE_RESPONSE_CANCELLED`. -/
  PTYPE_RESPONSE_CANCELLED : Int

/-- The case labels of the `switch` in `Authenticate` are pairwise different
(C demands it of the labels of one `switch`; `case 0` is one of them). -/
def PacketTypes.caseLabelsDistinct (PT : PacketTypes) : Prop :=
  PT.PTYPE_INFO_MESSAGE ≠ 0 ∧ PT.PTYPE_ERROR_MESSAGE ≠ 0 ∧
  PT.PTYPE_PROMPT_LIKE_USERNAME ≠ 0 ∧ PT.PTYPE_PROMPT_LIKE_PASSWORD ≠ 0 ∧
  PT.PTYPE_INFO_MESSAGE ≠ PT.PTYPE_ERROR_MESSAGE ∧
  PT.PTYPE_INFO_MESSAGE ≠ PT.PTYPE_PROMPT_LIKE_USERNAME ∧
  PT.PTYPE_INFO_MESSAGE ≠ PT.PTYPE_PROMPT_LIKE_PASSWORD ∧
  PT.PTYPE_ERROR_MESSAGE ≠ PT.PTYPE_PROMPT_LIKE_USERNAME ∧
  PT.PTYPE_ERROR_MESSAGE ≠ PT.PTYPE_PROMPT_LIKE_PASSWORD ∧
  PT.PTYPE_PROMPT_LIKE_USERNAME ≠ PT.PTYPE_PROMPT_LIKE_PASSWORD

instance (PT : PacketTypes) : Decidable PT.caseLabelsDistinct := by
  unfold PacketTypes.caseLabelsDistinct; exact inferInstance

/-- The codes used in the examples: the letters `'i'`, `'e'`, `'U'`, `'P'`,
`'u'`, `'p'`, `'x'`. -/
def authprotoTypes : PacketTypes :=
  { PTYPE_INFO_MESSAGE := 0x69
    PTYPE_ERROR_MESSAGE := 0x65
    PTYPE_PROMPT_LIKE_USERNAME := 0x55
    PTYPE_PROMPT_LIKE_PASSWORD := 0x50
    PTYPE_RESPONSE_LIKE_USERNAME := 0x75
    PTYPE_RESPONSE_LIKE_PASSWORD := 0x70
    PTYPE_RESPONSE_CANCELLED := 0x78 }

/-- A packet: its type code and its payload. -/
abbrev Packet := Int × List Nat

/-- What a call `Prompt(message, &response, echo)` gives `Authenticate` in an
environment of type `σ`: `none` while it has not returned, else the status,
`*response` (`none` when not assigned) and the environment left. -/
abbrev PromptCall (σ : Type) := Bool → List Nat → σ → Option (Int × Option (List Nat) × σ)

/-- How the packet loop of `Authenticate` stands. -/
inductive LoopOutcome (σ : Type) where
  /-- The label `done:` was reached: the packets written, the inbound packets
  never read, the environment left. -/
  | ended (written : List Packet) (unread : List Packet) (env : σ)
  /-- A call of `Prompt` has not returned; the packets written so far. -/
  | prompting (written : List Packet)
  /-- `WritePacket` was handed a `response` that `Prompt` did not assign. -/
  | undefined (written : List Packet)

/-- The loop `for (;;) { type = ReadPacket(requestfd[0], &message, 1);
switch (type) ... }` of `Authenticate`.  `inbound` lists what the successive
calls of `ReadPacket` return; when it is used up the stream is closed and
`ReadPacket` returns 0.  `written` collects the packets handed to
`WritePacket`, oldest first. -/
def packetLoop {σ : Type} (PT : PacketTypes) (prompt : PromptCall σ) :
    σ → List Packet → List Packet → LoopOutcome σ
  | env, written, [] => .ended written [] env
  | env, written, (type, message) :: rest =>
    if type = PT.PTYPE_INFO_MESSAGE then packetLoop PT prompt env written rest
    else if type = PT.PTYPE_ERROR_MESSAGE then packetLoop PT prompt env written rest
    else if type = PT.PTYPE_PROMPT_LIKE_USERNAME then
      match prompt true message env with
      | none => .prompting written
      | some (status, response, env) =>
        if status ≠ 0 then
          match response with
          | some r =>
            packetLoop PT prompt env (written ++ [(PT.PTYPE_RESPONSE_LIKE_USERNAME, cstr r)]) rest
          | none => .undefined written
        else packetLoop PT prompt env (written ++ [(PT.PTYPE_RESPONSE_CANCELLED, [])]) rest
    else if type = PT.PTYPE_PROMPT_LIKE_PASSWORD then
      match prompt false message env with
      | none => .prompting written
      | some (status, response, env) =>
        if status ≠ 0 then
          match response with
          | some r =>
            packetLoop PT prompt env (written ++ [(PT.PTYPE_RESPONSE_LIKE_PASSWORD, cstr r)]) rest
          | none => .undefined written
        else packetLoop PT prompt env (written ++ [(PT.PTYPE_RESPONSE_CANCELLED, [])]) rest
    else if type = 0 then .ended written rest env
    else .ended written rest env

/-! ## The dispatch table of the specification -/

/-- A packet the table answers: InfoMessage, ErrorMessage, PromptLikeUsername
or PromptLikePassword.  Any other packet (type 0 or an unrecognised type)
ends the session. -/
def isRequest (PT : PacketTypes) (p : Packet) : Bool :=
  p.1 = PT.PTYPE_INFO_MESSAGE ∨ p.1 = PT.PTYPE_ERROR_MESSAGE ∨
  p.1 = PT.PTYPE_PROMPT_LIKE_USERNAME ∨ p.1 = PT.PTYPE_PROMPT_LIKE_PASSWORD

/-- The inbound packets that precede the first packet of type 0 or of
unrecognised type. -/
def requests (PT : PacketTypes) (inbound : List Packet) : List Packet :=
  inbound.takeWhile (isRequest PT)

/-- The row of the dispatch table for one request, written after the
specification: nothing for InfoMessage and ErrorMessage; for
PromptLikeUsername one packet, ResponseLikeUsername(secret) if the prompt
(run with echo on) succeeded, else ResponseCancelled with empty payload; for
PromptLikePassword one packet, ResponseLikePassword(secret) if the prompt (run
with echo off) succeeded, else ResponseCancelled.  `P` gives the status, the
response and the environment left of a prompt that returns. -/
def responseTo {σ : Type} (PT : PacketTypes) (P : Bool → List Nat → σ → Int × List Nat × σ)
    (env : σ) (p : Packet) : List Packet × σ :=
  if p.1 = PT.PTYPE_INFO_MESSAGE ∨ p.1 = PT.PTYPE_ERROR_MESSAGE then ([], env)
  else if p.1 = PT.PTYPE_PROMPT_LIKE_USERNAME then
    let r := P true p.2 env
    ([if r.1 ≠ 0 then (PT.PTYPE_RESPONSE_LIKE_USERNAME, cstr r.2.1)
      else (PT.PTYPE_RESPONSE_CANCELLED, [])], r.2.2)
  else if p.1 = PT.PTYPE_PROMPT_LIKE_PASSWORD then
    let r := P false p.2 env
    ([if r.1 ≠ 0 then (PT.PTYPE_RESPONSE_LIKE_PASSWORD, cstr r.2.1)
      else (PT.PTYPE_RESPONSE_CANCELLED, [])], r.2.2)
  else ([], env)

/-- The responses to a list of requests, one entry per request in request
order, and the environment left. -/
def dispatchTrace {σ : Type} (PT : PacketTypes) (P : Bool → List Nat → σ → Int × List Nat × σ) :
    σ → List Packet → List (List Packet) × σ
  | env, [] => ([], env)
  | env, p :: ps =>
    let r := responseTo PT P env p
    let rs := dispatchTrace PT P r.2 ps
    (r.1 :: rs.1, rs.2)

/-- A prompt that always returns, as a `PromptCall`. -/
def returning {σ : Type} (P : Bool → List Nat → σ → Int × List Nat × σ) : PromptCall σ :=
  fun echo message env => some ((P echo message env).1, some (P echo message env).2.1,
    (P echo message env).2.2)

/-! ## `Authenticate` -/

/-- What the process primitives answer in one call of `Authenticate`: the
return values of the two `pipe` calls, of `ForkWithoutSigHandlers`, of
`WaitProc` (declared in `wait_pgrp.h`, taken as given), and the exit status
`WaitProc` stores. -/
structure Plumbing where
  /-- The return value of `pipe(requestfd)`. -/
  pipeRequest : Int
  /-- The return value of `pipe(responsefd)`. -/
  pipeResponse : Int
  /-- The return value of `ForkWithoutSigHandlers()`. -/
  childpid : Int
  /-- The return value of `WaitProc("authproto", &childpid, 1, 0, &status)`. -/
  waitProc : Int
  /-- The value `WaitProc` stores in `status`. -/
  status : Int

/-- How a call of `Authenticate` stands. -/
inductive AuthOutcome (σ : Type) where
  /-- `Authenticate` returned `ret`.  `written` are the packets handed to
  `WritePacket`, `unread` the inbound packets never read, `waited` tells
  whether `WaitProc` was called, `successTone` whether
  `PlaySound(SOUND_SUCCESS)` was called, `env` is the environment left. -/
  | returned (ret : Int) (written unread : List Packet) (waited successTone : Bool) (env : σ)
  /-- This is the child process: the branch ends in `execl` or `_exit` and
  never returns (its descriptor juggling is `childRemap`). -/
  | child
  /-- `WaitProc` returned false: `abort()`. -/
  | aborted (written : List Packet)
  /-- A call of `Prompt` has not returned. -/
  | prompting (written : List Packet)
  /-- `WritePacket` was handed a `response` that `Prompt` did not assign. -/
  | undefined (written : List Packet)

/-- The function `Authenticate()` in the parent process. -/
def Authenticate {σ : Type} (PT : PacketTypes) (prompt : PromptCall σ) (H : Plumbing)
    (env : σ) (inbound : List Packet) : AuthOutcome σ :=
  if H.pipeRequest ≠ 0 then .returned 1 [] inbound false false env
  else if H.pipeResponse ≠ 0 then .returned 1 [] inbound false false env
  else if H.childpid = -1 then .returned 1 [] inbound false false env
  else if H.childpid = 0 then .child
  else
    match packetLoop PT prompt env [] inbound with
    | .ended written unread env =>
      if H.waitProc = 0 then .aborted written
      else if H.status = 0 then .returned (if H.status ≠ 0 then 1 else 0) written unread true true env
      else .returned (if H.status ≠ 0 then 1 else 0) written unread true false env
    | .prompting written => .prompting written
    | .undefined written => .undefined written

/-- The environment of the prompts of one session: for each call of `Prompt`
still to come the `time(NULL)` reading at its start and what the stack holds
where `priv` will live; the wake-ups and the `rand()` outputs still to come. -/
structure Env where
  /-- Start reading and stack content for each call of `Prompt` to come. -/
  starts : List (Int × Priv)
  /-- The wake-ups to come. -/
  events : List Wakeup
  /-- The `rand()` outputs to come. -/
  rand : List Nat

/-- The call `Prompt(message, &response, echo)` as `Authenticate` sees it. -/
def promptCall (G : Settings) (mblen : List Nat → Int) : PromptCall Env :=
  fun echo _ env =>
    match env.starts with
    | [] => none
    | (now0, priv0) :: starts =>
      match Prompt G mblen echo priv0 now0 env.events env.rand with
      | .returned status response _ events rand =>
        some (status, response, { starts := starts, events := events, rand := rand })
      | _ => none

/-! ## The descriptors of the child -/

/-- What a descriptor of the child can refer to: one of the four pipe ends,
or something else that is open. -/
inductive FdTarget where
  /-- The read end of the request pipe, `requestfd[0]` at first. -/
  | requestRead
  /-- The write end of the request pipe, `requestfd[1]` at first. -/
  | requestWrite
  /-- The read end of the response pipe, `responsefd[0]` at first. -/
  | responseRead
  /-- The write end of the response pipe, `responsefd[1]` at first. -/
  | responseWrite
  /-- Any other open file. -/
  | other
  deriving DecidableEq

/-- A descriptor table: what each descriptor number refers to, `none` when
it is closed. -/
abbrev FdTable := Nat → Option FdTarget

/-- The call `close(fd)`. -/
def fdClose (t : FdTable) (fd : Nat) : FdTable :=
  fun i => if i = fd then none else t i

/-- The call `dup(oldfd)` when it returns `newfd`. -/
def fdDup (t : FdTable) (oldfd newfd : Nat) : FdTable :=
  fun i => if i = newfd then t oldfd else t i

/-- The call `dup2(oldfd, newfd)` on an open `oldfd`: `newfd` is closed if
need be and made to refer to what `oldfd` refers to. -/
def fdDup2 (t : FdTable) (oldfd newfd : Nat) : FdTable :=
  fun i => if i = newfd then t oldfd else t i

/-- The descriptor juggling of the child branch of `Authenticate`, when no
call fails.  `requestfd0`, `requestfd1`, `responsefd0`, `responsefd1` are
`requestfd[0]`, `requestfd[1]`, `responsefd[0]`, `responsefd[1]`; `dupResult` is
what `dup(requestfd[1])` returns. -/
def childRemap (t : FdTable) (requestfd0 requestfd1 responsefd0 responsefd1 dupResult : Nat) :
    FdTable :=
  let t := fdClose t requestfd0
  let t := fdClose t responsefd1
  if requestfd1 = 0 then
    let t := fdDup t requestfd1 dupResult
    let t := fdClose t requestfd1
    let t := fdDup2 t responsefd0 0
    let t := fdClose t responsefd0
    if dupResult ≠ 1 then
      let t := fdDup2 t dupResult 1
      fdClose t dupResult
    else t
  else
    let t := if responsefd0 ≠ 0 then fdClose (fdDup2 t responsefd0 0) responsefd0 else t
    if requestfd1 ≠ 1 then fdClose (fdDup2 t requestfd1 1) requestfd1 else t

/-- The table after the two `close` calls that open the child branch; the
descriptor `dup` returns is free in it. -/
def childAfterCloses (t : FdTable) (requestfd0 responsefd1 : Nat) : FdTable :=
  fdClose (fdClose t requestfd0) responsefd1

/-! ## Calls a round of the inner loop makes -/

/-- The calls of `Log`, `read` and `SwitchKeyboardLayout` in the inner loop
of `Prompt`. -/
inductive Call where
  /-- The call `LogErrno("select")`. -/
  | logSelect
  /-- The call `Log("AUTH_TIMEOUT hit")`. -/
  | logTimeout
  /-- The call `read(0, &priv.inputbuf, 1)`. -/
  | read
  /-- The call `Log("EOF on password input - bailing out")`. -/
  | logEOF
  /-- The call `SwitchKeyboardLayout()`. -/
  | switchLayout
  /-- The call `Log("Password entered is too long - bailing out")`. -/
  | logTooLong
  deriving DecidableEq

/-- The calls the `switch (priv.inputbuf)` makes, branch by branch as in
`handleKey`. -/
def handleKeyCalls (s : St) : List Call :=
  let c := s.priv.inputbuf
  if c = 0x08 ∨ c = 0x7F then []
  else if c = 0x01 then []
  else if c = 0x13 then [.switchLayout]
  else if c = 0x15 then []
  else if c = 0x00 ∨ c = 0x1B then []
  else if c = 0x0D ∨ c = 0x0A then []
  else if c ≤ 0x1F then []
  else if s.priv.pwlen < PWBUF_SIZE then []
  else [.logTooLong]

/-- The calls one round of the inner loop makes after `select` and `time`,
branch by branch as in `wake`. -/
def wakeCalls (G : Settings) (s : St) (w : Wakeup) : List Call :=
  if w.nfds < 0 then [.logSelect]
  else if w.now > s.deadline then [.logTimeout]
  else
    let s := if s.deadline > w.now + G.prompt_timeout
      then { s with deadline := w.now + G.prompt_timeout } else s
    if w.nfds = 0 then []
    else
      let s := { s with blink_state := false, deadline := w.now + G.prompt_timeout }
      if w.nread ≤ 0 then [.read, .logEOF]
      else .read :: handleKeyCalls { s with priv := { s.priv with inputbuf := w.byte % 256 } }

/-! ## Vocabulary of the statements about the deadline and the display -/

/-- The clock reading at the most recent wake-up at which input was ready,
`t` when there was none. -/
def lastInput : Int → List Wakeup → Int
  | t, [] => t
  | t, w :: ws => lastInput (if 0 < w.nfds then w.now else t) ws

/-- The clock readings do not decrease: each wake-up reads at least what
was read before it (`t` at first). -/
def nonDecreasing : Int → List Wakeup → Prop
  | _, [] => True
  | t, w :: ws => t ≤ w.now ∧ nonDecreasing w.now ws

instance nonDecreasing.decidable : (t : Int) → (ws : List Wakeup) → Decidable (nonDecreasing t ws)
  | _, [] => isTrue trivial
  | t, w :: ws => by
    unfold nonDecreasing
    have := nonDecreasing.decidable w.now ws
    exact inferInstance

/-- The C string `DisplayMessage` is handed, as far as it lies in the array:
the bytes of `displaybuf` before the first NUL. -/
def displayString (priv : Priv) : List Nat := cstr (bytes priv.displaybuf 0 DISPLAYBUF_SIZE)

/-- The content of the disco display after the specification: combiner,
dancer(bit 0), combiner, dancer(bit 1), ..., combiner, dancer(bit 4),
combiner, where dancer(bit i) is `disco_dancers[1]` if bit `i` of the marker
is set and `disco_dancers[0]` otherwise. -/
def discoContent (marker : Nat) : List Nat :=
  ((List.range DISCO_PASSWORD_DANCERS).map (fun i =>
    disco_combiner ++ disco_dancers.getD (if marker.testBit i then 1 else 0) [])).flatten
  ++ disco_combiner

/-! ## Concrete inputs -/

/-- Settings for the examples: a timeout of five minutes, paranoid display. -/
def exampleSettings : Settings :=
  { prompt_timeout := 300, paranoid_password := true, hide_password_completely := false,
    disco := false }

/-- A stack region that happens to hold zeros, as the initial content of `priv`. -/
def zeroPriv : Priv :=
  { pwbuf := fun _ => 0, pwlen := 0, displaybuf := fun _ => 0, displaylen := 0,
    displaymarker := 0, inputbuf := 0, prevpos := 0, pos := 0, len := 0 }

/-- The wake-up of a keystroke: `select` reports one descriptor, the clock
reads `now`, `read` delivers the byte `b`. -/
def key (now : Int) (b : Nat) : Wakeup := { nfds := 1, now := now, nread := 1, byte := b }

/-- The bytes of `"hunter2"`. -/
def hunter2 : List Nat := [0x68, 0x75, 0x6E, 0x74, 0x65, 0x72, 0x32]

/-- Typing `"hunter2\n"`, one keystroke per second from second 1 on. -/
def hunter2Return : List Wakeup :=
  [key 1 0x68, key 2 0x75, key 3 0x6E, key 4 0x74, key 5 0x65, key 6 0x72, key 7 0x32,
   key 8 0x0A]

/-- Outputs of `rand()` that move the marker between 31 and 1. -/
def exampleRand : List Nat := [30, 0, 30, 0, 30, 0, 30, 0]

/-- A state in which the buffer holds `"aé"` (bytes 61, C3 A9), the marker is
at 7 and one `rand()` output is left. -/
def twoCharState : St :=
  { priv := { zeroPriv with pwbuf := fun i => [0x61, 0xC3, 0xA9].getD i 0, pwlen := 3,
                            displaymarker := 7 }
    blink_state := false
    deadline := 300
    rand := [0] }

/-- A state whose deadline was set by a keystroke at second 1000000, before
the clock was set back. -/
def steppedState : St := { twoCharState with deadline := 1000300 }

/-- A blink wake-up (`select` timed out) at clock reading `now`. -/
def blink (now : Int) : Wakeup := { nfds := 0, now := now, nread := 0, byte := 0 }

/-- A `priv` whose buffer holds `"a"`, marker at 7. -/
def shortPriv : Priv :=
  { zeroPriv with pwbuf := fun i => [0x61].getD i 0, pwlen := 1, displaymarker := 7 }

/-- A `priv` whose buffer holds `"hunter2"`, marker at 7. -/
def longerPriv : Priv :=
  { zeroPriv with pwbuf := fun i => hunter2.getD i 0, pwlen := 7, displaymarker := 7 }

/-- A prompt whose outcomes are scripted: the environment is the list of the
outcomes (status and response) still to come; when none is left the prompt
fails. -/
def scriptedPrompt : Bool → List Nat → List (Int × List Nat) → Int × List Nat × List (Int × List Nat)
  | _, _, [] => (0, [], [])
  | _, _, (status, response) :: rest => (status, response, rest)

/-- A session: an info message, a username prompt, a password prompt, the
end packet, and a packet that is sent too late. -/
def exampleInbound : List Packet :=
  [(0x69, [0x68, 0x69]), (0x55, [0x3F]), (0x50, [0x3F]), (0, []), (0x50, [0x3F])]

/-- The username prompt succeeds with `"me"`, the password prompt is cancelled. -/
def exampleOutcomes : List (Int × List Nat) := [(1, [0x6D, 0x65, 0]), (0, [])]

/-- The input of the capacity scenario: 257 times the byte `'a'`. -/
def longInput : List Nat := List.replicate 257 0x61

/-- Typing `longInput`, every keystroke at second 1. -/
def longTyping : List Wakeup := List.replicate 257 (key 1 0x61)

/-- The outputs 30, 0 of `rand()`, 128 times over: 256 outputs. -/
def longRand : List Nat := (List.replicate 128 [30, 0]).flatten

/-- A helper that was started and exits with status 0. -/
def startedPlumbing : Plumbing :=
  { pipeRequest := 0, pipeResponse := 0, childpid := 4242, waitProc := 1, status := 0 }

/-- A helper that was started and exits with status 3. -/
def failedPlumbing : Plumbing :=
  { pipeRequest := 0, pipeResponse := 0, childpid := 4242, waitProc := 1, status := 3 }

/-- A child table in which the pipes got the descriptors 2, 0 (request) and
1, 3 (response): both targets are taken by the wrong end. -/
def crossedTable : FdTable :=
  fun i => [some .requestWrite, some .responseRead, some .requestRead, some .responseWrite].getD i none

/-- The example settings with every display switch off: the masked display. -/
def maskedSettings : Settings := { exampleSettings with paranoid_password := false }

/-- The example settings in disco mode. -/
def discoSettings : Settings := { exampleSettings with disco := true }

/-- Typing `"hunter2"` from second 1 to second 7, then a blink at second 9. -/
def hunter2Blink : List Wakeup :=
  [key 1 0x68, key 2 0x75, key 3 0x6E, key 4 0x74, key 5 0x65, key 6 0x72, key 7 0x32, blink 9]

/-! ## `CreateOrUpdatePerMonitorWindow` -/

/-- The members of `Monitor` (declared in `monitors.h`) that
`CreateOrUpdatePerMonitorWindow` reads. -/
structure Monitor where
  /-- The member `x`. -/
  x : Int
  /-- The member `y`. -/
  y : Int
  /-- The member `width`. -/
  width : Int
  /-- The member `height`. -/
  height : Int

/-- The rectangle `(x, y, w, h)` that `CreateOrUpdatePerMonitorWindow` computes
("Desired box", then "Clip to monitor") and hands to `XMoveResizeWindow` or
`XCreateWindow`.  The division is C's, truncating towards zero. -/
def CreateOrUpdatePerMonitorWindow (monitor : Monitor)
    (region_w region_h x_offset y_offset : Int) : Int × Int × Int × Int :=
  let w := region_w
  let h := region_h
  let x := monitor.x + (monitor.width - w).tdiv 2 + x_offset
  let y := monitor.y + (monitor.height - h).tdiv 2 + y_offset
  let w := if x < 0 then w + x else w
  let x := if x < 0 then 0 else x
  let h := if y < 0 then h + y else h
  let y := if y < 0 then 0 else y
  let w := if x + w > monitor.x + monitor.width then monitor.x + monitor.width - x else w
  let h := if y + h > monitor.y + monitor.height then monitor.y + monitor.height - y else h
  (x, y, w, h)

/-- A second monitor, to the right of a first one that is 1920 wide. -/
def secondMonitor : Monitor := { x := 1920, y := 0, width := 1280, height := 1024 }

/-- A `priv` whose buffer holds `"a"`, marker at 7, and whose display memory
(the array and what follows it) holds the byte AA everywhere. -/
def garbagePriv : Priv := { shortPriv with displaybuf := fun _ => 0xAA }

/-- The invariant of the prompt loop on the marker and on the stored bytes:
the marker is at most 31, it is at least 1 while the buffer is not empty,
and no stored byte is a control byte. -/
def Sound (s : St) : Prop :=
  s.priv.displaymarker ≤ 31 ∧ (0 < s.priv.pwlen → 1 ≤ s.priv.displaymarker) ∧
  ∀ i, i < s.priv.pwlen → 0x20 ≤ s.priv.pwbuf i ∧ s.priv.pwbuf i ≠ 0x7F

/-- The call `explicit_bzero(buf, n)` on a buffer given by its bytes. -/
def explicit_bzero (buf : List Nat) (n : Nat) : List Nat :=
  List.replicate (min n buf.length) 0 ++ buf.drop n

/-- A state whose buffer ends in a truncated character: `"a"` and the lead
byte C3 alone; marker at 7, one `rand()` output left. -/
def truncatedState : St :=
  { priv := { zeroPriv with pwbuf := fun i => [0x61, 0xC3].getD i 0, pwlen := 2,
                            displaymarker := 7 }
    blink_state := false
    deadline := 300
    rand := [0] }

/-! ## The final `memset` of `Prompt` in a build of the program -/

theorem PARANOID_PASSWORD_LENGTH_eq : PARANOID_PASSWORD_LENGTH = 32 := by decide

theorem BumpDisplayMarker_spec (pos : Int) (rs : List Nat) :
    ∀ p rs', BumpDisplayMarker pos rs = some (p, rs') →
      1 ≤ p ∧ p ≤ 31 ∧ 5 ≤ |p - pos| ∧ ∃ k, rs'.length + k + 1 = rs.length := by
  induction rs with
  | nil => intro p rs' h; simp [BumpDisplayMarker] at h
  | cons r rs ih =>
    intro p rs' h
    simp only [BumpDisplayMarker, PARANOID_PASSWORD_LENGTH_eq, PARANOID_PASSWORD_MIN_CHANGE] at h
    split at h
    · rename_i hacc
      simp only [Option.some.injEq, Prod.mk.injEq] at h
      obtain ⟨hp, hrs⟩ := h
      subst hp; subst hrs
      refine ⟨by omega, by omega, ?_, 0, by simp⟩
      simpa using hacc
    · obtain ⟨h1, h2, h3, k, hk⟩ := ih p rs' h
      exact ⟨h1, h2, h3, k + 1, by simp; omega⟩

/-- C5. Marker jump: for every `pos` in `0..31` and every sequence of `rand()`
outputs, a value `p` returned by `BumpDisplayMarker(pos)` satisfies
`1 ≤ p ≤ 31` and `|p - pos| ≥ 5`. -/
theorem BumpDisplayMarker_jump (pos : Int) (rs : List Nat) (p : Int) (rs' : List Nat)
    (_h0 : 0 ≤ pos) (_h1 : pos ≤ (PARANOID_PASSWORD_LENGTH : Int) - 1)
    (h : BumpDisplayMarker pos rs = some (p, rs')) :
    1 ≤ p ∧ p ≤ (PARANOID_PASSWORD_LENGTH : Int) - 1 ∧
      (PARANOID_PASSWORD_MIN_CHANGE : Int) ≤ |p - pos| := by
  obtain ⟨a, b, c, _⟩ := BumpDisplayMarker_spec pos rs p rs' h
  simp only [PARANOID_PASSWORD_LENGTH_eq, PARANOID_PASSWORD_MIN_CHANGE]
  exact ⟨a, by omega, by simpa using c⟩

/-- Witness of C5: from position 3 the `rand()` outputs 4, 35, 40 are rejected
twice (5 and 5) and then give 10. -/
theorem BumpDisplayMarker_jump_witness :
    (0 : Int) ≤ 3 ∧ (3 : Int) ≤ (PARANOID_PASSWORD_LENGTH : Int) - 1 ∧
    BumpDisplayMarker 3 [4, 35, 40, 7] = some (10, [7]) ∧
    ((1 : Int) ≤ 10 ∧ (10 : Int) ≤ (PARANOID_PASSWORD_LENGTH : Int) - 1 ∧
      (PARANOID_PASSWORD_MIN_CHANGE : Int) ≤ |(10 : Int) - 3|) :=
  ⟨by decide, by decide, by decide,
    BumpDisplayMarker_jump 3 [4, 35, 40, 7] 10 [7] (by decide) (by decide) (by decide)⟩

theorem randOutputsFor_eq (N v : Nat) (h1 : 1 ≤ v) (h2 : v ≤ 31) :
    randOutputsFor N v = (N + 1) / 31 + if v - 1 < (N + 1) % 31 then 1 else 0 := by
  unfold randOutputsFor
  have key := @Nat.count_modEq_card (N + 1) 31 (by norm_num) (v - 1)
  rw [Nat.mod_eq_of_lt (by omega : v - 1 < 31)] at key
  rw [← key, Nat.count_eq_card_filter_range, Nat.count_eq_card_filter_range]
  congr 1
  apply Finset.filter_congr
  intro x _
  simp only [Nat.ModEq, PARANOID_PASSWORD_LENGTH_eq]
  omega

/-- The permitted set is never empty, and one `rand()` output suffices to
return any permitted value. -/
theorem BumpDisplayMarker_reaches (pos : Int) (h0 : 0 ≤ pos) (h1 : pos ≤ 31) :
    (∃ p, permitted pos p) ∧
    ∀ p, permitted pos p → BumpDisplayMarker pos [(p - 1).toNat] = some (p, []) := by
  constructor
  · by_cases h : pos ≤ 15
    · refine ⟨31, ?_⟩
      simp only [permitted, PARANOID_PASSWORD_LENGTH_eq, PARANOID_PASSWORD_MIN_CHANGE]
      refine ⟨by norm_num, by norm_num, ?_⟩
      rw [abs_of_nonneg (by omega)]; push_cast; omega
    · refine ⟨1, ?_⟩
      simp only [permitted, PARANOID_PASSWORD_LENGTH_eq, PARANOID_PASSWORD_MIN_CHANGE]
      refine ⟨by norm_num, by norm_num, ?_⟩
      rw [abs_of_nonpos (by omega)]; push_cast; omega
  · intro p hp
    simp only [permitted, PARANOID_PASSWORD_LENGTH_eq, PARANOID_PASSWORD_MIN_CHANGE] at hp
    obtain ⟨ha, hb, hc⟩ := hp
    have hcast : (((p - 1).toNat : Nat) : Int) = p - 1 := Int.toNat_of_nonneg (by omega)
    have hmod : (p - 1) % (((32 : Nat) : Int) - 1) = p - 1 := by
      apply Int.emod_eq_of_lt <;> (push_cast; omega)
    have hnp : 1 + (p - 1) = p := by ring
    simp only [BumpDisplayMarker, PARANOID_PASSWORD_LENGTH_eq, PARANOID_PASSWORD_MIN_CHANGE,
      hcast, hmod, hnp]
    rw [if_pos hc]

/-- C6 (the code at the failing input). With glibc's `RAND_MAX = 2147483647`
the `rand()` outputs are not spread evenly over the permitted values: at
`pos = 16` both 1 and 31 are permitted, 69273667 outputs map to 1 and only
69273666 map to 31. -/
theorem BumpDisplayMarker_modulo_bias :
    permitted 16 1 ∧ permitted 16 31 ∧
    randOutputsFor 2147483647 1 = 69273667 ∧ randOutputsFor 2147483647 31 = 69273666 := by
  refine ⟨by decide, by decide, ?_, ?_⟩
  · rw [randOutputsFor_eq _ _ (by norm_num) (by norm_num)]; norm_num
  · rw [randOutputsFor_eq _ _ (by norm_num) (by norm_num)]; norm_num

/-! ## Leaving the loops of `Prompt` -/

theorem handleKey_exit (mblen : List Nat → Int) (s s' : St) (status : Int)
    (response : Option (List Nat)) (h : handleKey mblen s = .exit status response s') :
    s' = s ∧
    ((status = 1 ∧ response = some (bytes s.priv.pwbuf 0 s.priv.pwlen ++ [0]) ∧
        (s.priv.inputbuf = 0x0D ∨ s.priv.inputbuf = 0x0A)) ∨
     (status = 0 ∧ response = none ∧
        ¬ (s.priv.inputbuf = 0x0D ∨ s.priv.inputbuf = 0x0A))) := by
  unfold handleKey at h
  simp only at h
  split_ifs at h with h1 h2 h3 h4 h5 h6 h7 h8 h9 h10
  all_goals first
    | (simp only [Step.exit.injEq] at h
       obtain ⟨ha, hb, hc⟩ := h
       subst ha; subst hb; subst hc
       refine ⟨rfl, ?_⟩
       first
         | exact Or.inl ⟨rfl, rfl, by assumption⟩
         | (refine Or.inr ⟨rfl, rfl, ?_⟩; omega))
    | (split at h <;> simp at h)

theorem wake_exit (G : Settings) (mblen : List Nat → Int) (echo : Bool) (s s' : St) (w : Wakeup)
    (status : Int) (response : Option (List Nat))
    (h : wake G mblen echo s w = .exit status response s') :
    (isReturnWake s.deadline w ∧ status = 1 ∧
        response = some (bytes s.priv.pwbuf 0 s.priv.pwlen ++ [0])) ∨
    (¬ isReturnWake s.deadline w ∧ status = 0 ∧ response = none) := by
  unfold wake at h
  simp only at h
  split_ifs at h with h1 h2 h3 h4 h5 h6
  all_goals first
    | (simp only [Step.exit.injEq] at h
       obtain ⟨ha, hb, _⟩ := h
       subst ha; subst hb
       refine Or.inr ⟨?_, rfl, rfl⟩
       unfold isReturnWake
       omega)
    | (obtain ⟨_, hk⟩ := handleKey_exit _ _ _ _ _ h
       simp only at hk
       rcases hk with ⟨ha, hb, hc⟩ | ⟨ha, hb, hc⟩
       · refine Or.inl ⟨?_, ha, hb⟩
         unfold isReturnWake
         refine ⟨by omega, by omega, by omega, hc⟩
       · refine Or.inr ⟨?_, ha, hb⟩
         unfold isReturnWake
         intro hr
         exact hc hr.2.2.2)

theorem promptLoop_returned (G : Settings) (mblen : List Nat → Int) (echo : Bool)
    (events : List Wakeup) :
    ∀ (s0 : St) (status : Int) (response : Option (List Nat)) (priv : Priv)
      (rest : List Wakeup) (rand' : List Nat),
      promptLoop G mblen echo s0 events = .returned status response priv rest rand' →
      ∃ pre w s s', events = pre ++ w :: rest ∧
        promptLoop G mblen echo s0 pre = .collecting s ∧
        wake G mblen echo s w = .exit status response s' ∧
        priv = cleanup s'.priv ∧ rand' = s'.rand := by
  induction events with
  | nil => intro s0 status response priv rest rand' h; simp [promptLoop] at h
  | cons w ws ih =>
    intro s0 status response priv rest rand' h
    simp only [promptLoop] at h
    split at h
    · rename_i s1 hw
      obtain ⟨pre, w', s, s', he, hp, hx, hc, hr⟩ := ih s1 status response priv rest rand' h
      refine ⟨w :: pre, w', s, s', by simp [he], ?_, hx, hc, hr⟩
      simp only [promptLoop, hw]
      exact hp
    · rename_i st rsp s1 hw
      simp only [Outcome.returned.injEq] at h
      obtain ⟨h1, h2, h3, h4, h5⟩ := h
      subst h1; subst h2; subst h4
      exact ⟨[], w, s0, s1, by simp, by simp [promptLoop], hw, h3.symm, h5.symm⟩
    · simp at h

/-- C1. `Prompt` returns 1 exactly when the wake-up that ended the loop
delivered a Return byte; every other way of leaving the loop returns 0 with
`*response` unassigned.  (`pre` are the wake-ups before the one that ended the
loop, `w` is that wake-up, `s` the state it met.) -/
theorem Prompt_status_iff_return (G : Settings) (mblen : List Nat → Int) (echo : Bool)
    (priv0 : Priv) (now0 : Int) (events : List Wakeup) (rand : List Nat) (status : Int)
    (response : Option (List Nat)) (priv : Priv) (rest : List Wakeup) (rand' : List Nat)
    (h : Prompt G mblen echo priv0 now0 events rand = .returned status response priv rest rand') :
    ∃ pre w s, events = pre ++ w :: rest ∧
      Prompt G mblen echo priv0 now0 pre rand = .collecting s ∧
      (status = 1 ↔ isReturnWake s.deadline w) ∧
      (status = 1 → response.isSome) ∧
      (status ≠ 1 → status = 0 ∧ response = none) := by
  obtain ⟨pre, w, s, s', he, hp, hx, _, _⟩ := promptLoop_returned G mblen echo events _ _ _ _ _ _ h
  refine ⟨pre, w, s, he, hp, ?_⟩
  rcases wake_exit G mblen echo s s' w status response hx with ⟨ha, hb, hc⟩ | ⟨ha, hb, hc⟩
  · exact ⟨⟨fun _ => ha, fun _ => hb⟩, fun _ => by simp [hc], fun hn => absurd hb hn⟩
  · refine ⟨⟨fun h1 => ?_, fun hr => absurd hr ha⟩, fun h1 => ?_, fun _ => ⟨hb, hc⟩⟩ <;> omega

/-- Witness of C1: typing `"hunter2\n"` makes `Prompt` return 1. -/
theorem Prompt_status_iff_return_witness :
    ∃ pre w s, hunter2Return = pre ++ w :: [] ∧
      Prompt exampleSettings mblenUtf8 false zeroPriv 0 pre exampleRand = .collecting s ∧
      ((1 : Int) = 1 ↔ isReturnWake s.deadline w) ∧
      ((1 : Int) = 1 → (some (hunter2 ++ [0])).isSome) ∧
      ((1 : Int) ≠ 1 → (1 : Int) = 0 ∧ some (hunter2 ++ [0]) = none) :=
  Prompt_status_iff_return exampleSettings mblenUtf8 false zeroPriv 0 hunter2Return exampleRand
    1 (some (hunter2 ++ [0])) _ [] _ rfl

/-- When the final `memset` is performed (as `Prompt` has it, following the
source text), every member of `priv` is zero at the `return`, the arrays over
their whole declared size, whatever the wake-ups were and however the loop
ended.  That a build may drop the store is the subject of the last section. -/
theorem Prompt_zeroes_priv (G : Settings) (mblen : List Nat → Int) (echo : Bool)
    (priv0 : Priv) (now0 : Int) (events : List Wakeup) (rand : List Nat) (status : Int)
    (response : Option (List Nat)) (priv : Priv) (rest : List Wakeup) (rand' : List Nat)
    (h : Prompt G mblen echo priv0 now0 events rand = .returned status response priv rest rand') :
    (∀ i, i < PWBUF_SIZE → priv.pwbuf i = 0) ∧ priv.pwlen = 0 ∧
    (∀ i, i < DISPLAYBUF_SIZE → priv.displaybuf i = 0) ∧ priv.displaylen = 0 ∧
    priv.displaymarker = 0 ∧ priv.inputbuf = 0 ∧ priv.prevpos = 0 ∧ priv.pos = 0 ∧
    priv.len = 0 := by
  obtain ⟨_, _, _, s', _, _, _, hc, _⟩ := promptLoop_returned G mblen echo events _ _ _ _ _ _ h
  subst hc
  refine ⟨fun i hi => ?_, rfl, fun i hi => ?_, rfl, rfl, rfl, rfl, rfl, rfl⟩
  · simp [cleanup, memset, hi]
  · simp [cleanup, memset, hi]

/-- An instance of `Prompt_zeroes_priv`: after the Escape key (at second 1, as
the only wake-up) `priv` is all zero when the final `memset` is performed. -/
theorem Prompt_zeroes_priv_witness :
    ∃ priv : Priv,
      Prompt exampleSettings mblenUtf8 false zeroPriv 0 [key 1 0x1B] exampleRand
        = .returned 0 none priv [] exampleRand ∧
      ((∀ i, i < PWBUF_SIZE → priv.pwbuf i = 0) ∧ priv.pwlen = 0 ∧
       (∀ i, i < DISPLAYBUF_SIZE → priv.displaybuf i = 0) ∧ priv.displaylen = 0 ∧
       priv.displaymarker = 0 ∧ priv.inputbuf = 0 ∧ priv.prevpos = 0 ∧ priv.pos = 0 ∧
       priv.len = 0) :=
  ⟨_, rfl, Prompt_zeroes_priv exampleSettings mblenUtf8 false zeroPriv 0 [key 1 0x1B]
    exampleRand 0 none _ [] exampleRand rfl⟩

/-! ## Typing -/

theorem bytes_length (buf : Nat → Nat) (off n : Nat) : (bytes buf off n).length = n := by
  simp [bytes]

theorem bytes_store_succ (buf : Nat → Nat) (n b : Nat) :
    bytes (store buf n b) 0 (n + 1) = bytes buf 0 n ++ [b] := by
  unfold bytes
  rw [List.range_succ, List.map_append]
  congr 1
  · apply List.map_congr_left
    intro i hi
    have : i < n := List.mem_range.mp hi
    simp [store]
    omega
  · simp [store]

theorem promptLoop_append (G : Settings) (mblen : List Nat → Int) (echo : Bool)
    (pre post : List Wakeup) :
    ∀ s s', promptLoop G mblen echo s pre = .collecting s' →
      promptLoop G mblen echo s (pre ++ post) = promptLoop G mblen echo s' post := by
  induction pre with
  | nil => intro s s' h; simp only [promptLoop, Outcome.collecting.injEq] at h; subst h; rfl
  | cons w ws ih =>
    intro s s' h
    simp only [promptLoop, List.cons_append] at h ⊢
    split at h
    · rename_i s1 hw
      exact ih s1 s' h
    · simp at h
    · simp at h

/-- A keystroke of a non-control byte that arrives in time while the buffer
has room is appended, and the marker is bumped. -/
theorem wake_append (G : Settings) (mblen : List Nat → Int) (echo : Bool) (s : St) (w : Wakeup)
    (p : Int) (rs : List Nat)
    (hn : 0 < w.nfds) (ht : w.now ≤ s.deadline) (hr : 0 < w.nread) (hb : nonControl w.byte)
    (hroom : s.priv.pwlen < PWBUF_SIZE)
    (hbump : BumpDisplayMarker (s.priv.displaymarker : Int) s.rand = some (p, rs)) :
    ∃ s1, wake G mblen echo s w = .cont s1 ∧
      s1.priv.pwbuf = store s.priv.pwbuf s.priv.pwlen w.byte ∧
      s1.priv.pwlen = s.priv.pwlen + 1 ∧
      s1.priv.displaymarker = p.toNat ∧ s1.rand = rs ∧
      s1.deadline = w.now + G.prompt_timeout := by
  obtain ⟨hb1, hb2, hb3⟩ := hb
  have hmod : w.byte % 256 = w.byte := Nat.mod_eq_of_lt hb2
  unfold wake
  simp only
  rw [if_neg (by omega), if_neg (by omega), if_neg (by omega), if_neg (by omega)]
  unfold handleKey
  simp only [hmod]
  rw [if_neg (by omega), if_neg (by omega), if_neg (by omega), if_neg (by omega),
    if_neg (by omega), if_neg (by omega), if_neg (by omega)]
  split_ifs with hd
  all_goals simp only [bumpMarker, hbump]
  all_goals exact ⟨_, rfl, rfl, rfl, rfl, rfl, rfl⟩

/-- Typing non-control bytes `str` into a buffer that has room for them, then
one more byte `last`: the run reaches the wake-up `w` of `last` in a state
`s'` whose buffer is the old content followed by `str`. -/
theorem typing_run (G : Settings) (mblen : List Nat → Int) (echo : Bool) :
    ∀ (str : List Nat) (ws : List Wakeup) (s : St) (last : Nat) (p : Int) (rs : List Nat),
      ws.map Wakeup.byte = str ++ [last] → (∀ b ∈ str, nonControl b) →
      Typed G.prompt_timeout s.deadline ws →
      s.priv.pwlen + str.length ≤ PWBUF_SIZE →
      bumpN str.length (s.priv.displaymarker : Int) s.rand = some (p, rs) →
      ∃ pre s' w, ws = pre ++ [w] ∧ promptLoop G mblen echo s pre = .collecting s' ∧
        w.byte = last ∧ 0 < w.nfds ∧ w.now ≤ s'.deadline ∧ 0 < w.nread ∧
        s'.priv.pwlen = s.priv.pwlen + str.length ∧
        bytes s'.priv.pwbuf 0 s'.priv.pwlen = bytes s.priv.pwbuf 0 s.priv.pwlen ++ str ∧
        s'.rand = rs ∧ (s'.priv.displaymarker : Int) = p := by
  intro str
  induction str with
  | nil =>
    intro ws s last p rs hmap _ htyped _ hbump
    match ws, hmap, htyped with
    | [w], hmap, htyped =>
      simp only [List.map_cons, List.map_nil, List.nil_append, List.cons.injEq, and_true] at hmap
      simp only [Typed] at htyped
      simp only [bumpN, List.length_nil, Option.some.injEq, Prod.mk.injEq] at hbump
      exact ⟨[], s, w, rfl, rfl, hmap, htyped.1, htyped.2.1, htyped.2.2.1, by simp, by simp,
        hbump.2, hbump.1⟩
  | cons b str ih =>
    intro ws s last p rs hmap hnc htyped hroom hbump
    match ws, hmap, htyped with
    | w :: ws', hmap, htyped =>
      simp only [List.map_cons, List.cons_append, List.cons.injEq] at hmap
      obtain ⟨hwb, hmap'⟩ := hmap
      simp only [Typed] at htyped
      obtain ⟨hn, ht, hr, htyped'⟩ := htyped
      simp only [List.length_cons] at hroom
      simp only [bumpN, List.length_cons] at hbump
      split at hbump
      · simp at hbump
      · rename_i p1 rs1 hb1
        have hp1 := BumpDisplayMarker_spec _ _ _ _ hb1
        obtain ⟨s1, hw, hbuf, hlen, hmark, hrand, hdl⟩ :=
          wake_append G mblen echo s w p1 rs1 hn ht hr
            (by rw [hwb]; exact hnc b (List.mem_cons_self _ _)) (by omega) hb1
        have hcast : ((s1.priv.displaymarker : Nat) : Int) = p1 := by
          rw [hmark]; exact Int.toNat_of_nonneg (by omega)
        obtain ⟨pre, s', w', hws, hrun, h1, h2, h3, h4, h5, h6, h7, h8⟩ :=
          ih ws' s1 last p rs hmap' (fun c hc => hnc c (List.mem_cons_of_mem _ hc))
            (by rw [hdl]; exact htyped') (by omega) (by rw [hcast, hrand]; exact hbump)
        refine ⟨w :: pre, s', w', by simp [hws], ?_, h1, h2, h3, h4,
          by simp only [List.length_cons]; omega, ?_, h7, h8⟩
        · simp only [promptLoop, hw]
          exact hrun
        · rw [h6, hlen, hbuf, bytes_store_succ, hwb]
          simp

/-- A wake-up that delivers a Return byte ends the loop with status 1 and a
copy of the buffer. -/
theorem wake_return (G : Settings) (mblen : List Nat → Int) (echo : Bool) (s : St) (w : Wakeup)
    (h : isReturnWake s.deadline w) :
    ∃ s', wake G mblen echo s w
      = .exit 1 (some (bytes s.priv.pwbuf 0 s.priv.pwlen ++ [0])) s' := by
  obtain ⟨hn, ht, hr, hk⟩ := h
  unfold wake
  simp only
  rw [if_neg (by omega), if_neg (by omega), if_neg (by omega), if_neg (by omega)]
  unfold handleKey
  simp only
  rw [if_neg (by omega), if_neg (by omega), if_neg (by omega), if_neg (by omega),
    if_neg (by omega), if_pos hk]
  split_ifs <;> exact ⟨_, rfl⟩

theorem render_frame (G : Settings) (mblen : List Nat → Int) (echo blink : Bool) (priv : Priv) :
    (render G mblen echo blink priv).pwbuf = priv.pwbuf ∧
    (render G mblen echo blink priv).pwlen = priv.pwlen ∧
    (render G mblen echo blink priv).displaymarker = priv.displaymarker ∧
    (render G mblen echo blink priv).inputbuf = priv.inputbuf := by
  unfold render
  split_ifs <;> exact ⟨rfl, rfl, rfl, rfl⟩

theorem promptStart_frame (G : Settings) (mblen : List Nat → Int) (echo : Bool) (priv0 : Priv)
    (now0 : Int) (rand : List Nat) :
    (promptStart G mblen echo priv0 now0 rand).priv.pwbuf = priv0.pwbuf ∧
    (promptStart G mblen echo priv0 now0 rand).priv.pwlen = 0 ∧
    (promptStart G mblen echo priv0 now0 rand).priv.displaymarker = 0 ∧
    (promptStart G mblen echo priv0 now0 rand).deadline = now0 + G.prompt_timeout ∧
    (promptStart G mblen echo priv0 now0 rand).rand = rand := by
  obtain ⟨h1, h2, h3, _⟩ := render_frame G mblen echo false
    { priv0 with pwlen := 0, displaymarker := 0 }
  exact ⟨h1, h2, h3, rfl, rfl⟩

theorem cstr_terminated (str : List Nat) (h : ∀ b ∈ str, b ≠ 0) : cstr (str ++ [0]) = str := by
  unfold cstr
  induction str with
  | nil => simp
  | cons b str ih =>
    have hb : b ≠ 0 := h b (List.mem_cons_self _ _)
    simp only [List.cons_append, List.takeWhile_cons, bne_iff_ne, ne_eq, hb, not_false_eq_true,
      decide_True, ite_true]
    rw [ih (fun c hc => h c (List.mem_cons_of_mem _ hc))]

/-- C2. When `Prompt` ends on a Return byte, `*response` holds the first
`pwlen` bytes of `pwbuf` as they were when the byte arrived, followed by one
NUL; and typing a string `str` of at most 256 non-control bytes, then Return,
returns 1 with the C string `str` (whenever the `rand()` outputs let the
`str.length` marker bumps end). -/
theorem Prompt_secret (G : Settings) (mblen : List Nat → Int) (echo : Bool) (priv0 : Priv)
    (now0 : Int) :
    (∀ events rand response priv rest rand',
      Prompt G mblen echo priv0 now0 events rand = .returned 1 response priv rest rand' →
      ∃ pre w s, events = pre ++ w :: rest ∧
        Prompt G mblen echo priv0 now0 pre rand = .collecting s ∧
        isReturnWake s.deadline w ∧
        response = some (bytes s.priv.pwbuf 0 s.priv.pwlen ++ [0])) ∧
    (∀ (str : List Nat) (ws : List Wakeup) (ret : Nat) (rest : List Wakeup) (rand : List Nat),
      str.length ≤ PWBUF_SIZE → (∀ b ∈ str, nonControl b) → (ret = 0x0D ∨ ret = 0x0A) →
      ws.map Wakeup.byte = str ++ [ret] →
      Typed G.prompt_timeout (now0 + G.prompt_timeout) ws →
      (bumpN str.length 0 rand).isSome →
      ∃ priv rand',
        Prompt G mblen echo priv0 now0 (ws ++ rest) rand
          = .returned 1 (some (str ++ [0])) priv rest rand' ∧
        cstr (str ++ [0]) = str) := by
  constructor
  · intro events rand response priv rest rand' h
    obtain ⟨pre, w, s, s', he, hp, hx, _, _⟩ :=
      promptLoop_returned G mblen echo events _ _ _ _ _ _ h
    refine ⟨pre, w, s, he, hp, ?_⟩
    rcases wake_exit G mblen echo s s' w 1 response hx with ⟨ha, _, hc⟩ | ⟨_, hb, _⟩
    · exact ⟨ha, hc⟩
    · omega
  · intro str ws ret rest rand hlen hnc hret hmap htyped hbump
    obtain ⟨hf1, hf2, hf3, hf4, hf5⟩ := promptStart_frame G mblen echo priv0 now0 rand
    obtain ⟨⟨p, rs⟩, hpr⟩ := Option.isSome_iff_exists.mp hbump
    obtain ⟨pre, s', w, hws, hrun, hwb, hn, ht, hr, hl, hbytes, _, _⟩ :=
      typing_run G mblen echo str ws (promptStart G mblen echo priv0 now0 rand) ret p rs
        hmap hnc (by rw [hf4]; exact htyped) (by rw [hf2]; omega)
        (by rw [hf3, hf5]; exact hpr)
    have hret' : isReturnWake s'.deadline w := by
      refine ⟨hn, ht, hr, ?_⟩
      rw [hwb]
      rcases hret with h | h <;> simp [h]
    obtain ⟨s'', hs''⟩ := wake_return G mblen echo s' w hret'
    refine ⟨cleanup s''.priv, s''.rand, ?_, ?_⟩
    · unfold Prompt
      rw [hws, List.append_assoc, promptLoop_append G mblen echo pre _ _ _ hrun]
      simp only [List.singleton_append, promptLoop, hs'']
      rw [hbytes, hf2, hf1]
      simp [bytes]
    · exact cstr_terminated str (fun b hb => by have := hnc b hb; unfold nonControl at this; omega)

/-- Witness of C2: typing `"hunter2\n"` returns `"hunter2"`. -/
theorem Prompt_secret_witness :
    hunter2.length ≤ PWBUF_SIZE ∧ (∀ b ∈ hunter2, nonControl b) ∧
    hunter2Return.map Wakeup.byte = hunter2 ++ [0x0A] ∧
    Typed exampleSettings.prompt_timeout (0 + exampleSettings.prompt_timeout) hunter2Return ∧
    (bumpN hunter2.length 0 exampleRand).isSome ∧
    ∃ priv rand',
      Prompt exampleSettings mblenUtf8 false zeroPriv 0 (hunter2Return ++ []) exampleRand
        = .returned 1 (some (hunter2 ++ [0])) priv [] rand' ∧
      cstr (hunter2 ++ [0]) = hunter2 :=
  ⟨by decide, by decide, by decide, by decide, by decide,
    (Prompt_secret exampleSettings mblenUtf8 false zeroPriv 0).2 hunter2 hunter2Return 0x0A []
      exampleRand (by decide) (by decide) (by decide) (by decide) (by decide) (by decide)⟩

/-! ## The scans and the capacity of the buffer -/

/-- The backward skip has left its loop after `pwlen - pos` rounds: more
rounds change nothing. -/
theorem backwardSkip_enough (mblen : List Nat → Int) (pwbuf : Nat → Nat) (pwlen k : Nat) :
    ∀ fuel pos prevpos len, pwlen - pos ≤ fuel →
      backwardSkip mblen pwbuf pwlen (fuel + k) pos prevpos len
        = backwardSkip mblen pwbuf pwlen fuel pos prevpos len := by
  intro fuel
  induction fuel with
  | zero =>
    intro pos prevpos len h
    cases k with
    | zero => rfl
    | succ k =>
      simp only [Nat.zero_add, backwardSkip]
      rw [if_neg (by omega)]
  | succ fuel ih =>
    intro pos prevpos len h
    rw [Nat.add_right_comm]
    simp only [backwardSkip]
    split_ifs with h1 h2
    · rfl
    · exact ih _ _ _ (by omega)
    · rfl

/-- The character count has left its loop after `pwlen - pos` rounds. -/
theorem countChars_enough (mblen : List Nat → Int) (pwbuf : Nat → Nat) (pwlen k : Nat) :
    ∀ fuel pos displaylen len, pwlen - pos ≤ fuel →
      countChars mblen pwbuf pwlen (fuel + k) pos displaylen len
        = countChars mblen pwbuf pwlen fuel pos displaylen len := by
  intro fuel
  induction fuel with
  | zero =>
    intro pos displaylen len h
    cases k with
    | zero => rfl
    | succ k =>
      simp only [Nat.zero_add, countChars]
      rw [if_neg (by omega)]
  | succ fuel ih =>
    intro pos displaylen len h
    rw [Nat.add_right_comm]
    simp only [countChars]
    split_ifs with h1 h2
    · rfl
    · exact ih _ _ _ (by omega)
    · rfl

theorem backwardSkip_prevpos_le (mblen : List Nat → Int) (pwbuf : Nat → Nat) (pwlen : Nat) :
    ∀ fuel pos prevpos len, prevpos ≤ pwlen →
      (backwardSkip mblen pwbuf pwlen fuel pos prevpos len).2.1 ≤ pwlen := by
  intro fuel
  induction fuel with
  | zero => intro pos prevpos len h; exact h
  | succ fuel ih =>
    intro pos prevpos len h
    simp only [backwardSkip]
    split_ifs with h1 h2
    · exact Nat.le_of_lt h1
    · exact ih _ _ _ (Nat.le_of_lt h1)
    · exact h

theorem bumpMarker_some (s s' : St) (h : bumpMarker s = some s') :
    ∃ p rs, BumpDisplayMarker (s.priv.displaymarker : Int) s.rand = some (p, rs) ∧
      s' = { s with priv := { s.priv with displaymarker := p.toNat }, rand := rs } := by
  unfold bumpMarker at h
  split at h
  · simp at h
  · rename_i p rs hb
    simp only [Option.some.injEq] at h
    exact ⟨p, rs, hb, h.symm⟩

theorem handleKey_pwlen_le (mblen : List Nat → Int) (s s' : St)
    (h : handleKey mblen s = .cont s') (hle : s.priv.pwlen ≤ PWBUF_SIZE) :
    s'.priv.pwlen ≤ PWBUF_SIZE := by
  have hskip := backwardSkip_prevpos_le mblen s.priv.pwbuf s.priv.pwlen s.priv.pwlen 0 0
    s.priv.len (Nat.zero_le _)
  unfold handleKey at h
  simp only at h
  split_ifs at h with h1 h2 h3 h4 h5 h6 h7 h8 h9 h10
  all_goals first
    | (simp only [Step.cont.injEq] at h
       subst h
       first | exact hle | (simp only; omega))
    | (split at h
       · simp at h
       · rename_i s1 hb
         simp only [Step.cont.injEq] at h
         obtain ⟨p, rs, _, hs1⟩ := bumpMarker_some _ _ hb
         subst hs1
         subst h
         simp only
         omega)

/-- A round of the inner loop that does not end the prompt keeps
`pwlen ≤ PWBUF_SIZE`. -/
theorem wake_pwlen_le (G : Settings) (mblen : List Nat → Int) (echo : Bool) (s s' : St)
    (w : Wakeup) (h : wake G mblen echo s w = .cont s') (hle : s.priv.pwlen ≤ PWBUF_SIZE) :
    s'.priv.pwlen ≤ PWBUF_SIZE := by
  unfold wake at h
  simp only at h
  split_ifs at h with h1 h2 h3 h4 h5 h6
  all_goals first
    | (simp only [Step.cont.injEq] at h
       subst h
       simp only [redraw, (render_frame G mblen echo _ _).2.1]
       exact hle)
    | exact handleKey_pwlen_le mblen _ _ h hle

/-- A property of the state that every continuing round keeps holds at every
point a run reaches. -/
theorem promptLoop_invariant (G : Settings) (mblen : List Nat → Int) (echo : Bool)
    (I : St → Prop) (hstep : ∀ s w s', I s → wake G mblen echo s w = .cont s' → I s')
    (events : List Wakeup) :
    ∀ s s', I s → promptLoop G mblen echo s events = .collecting s' → I s' := by
  induction events with
  | nil =>
    intro s s' hI h
    simp only [promptLoop, Outcome.collecting.injEq] at h
    exact h ▸ hI
  | cons w ws ih =>
    intro s s' hI h
    simp only [promptLoop] at h
    split at h
    · rename_i s1 hw
      exact ih s1 s' (hstep s w s1 hI hw) h
    · simp at h
    · simp at h

/-- A keystroke of a non-control byte that arrives in time while the buffer
is full ends the loop with status 0 and leaves the buffer as it was. -/
theorem wake_full (G : Settings) (mblen : List Nat → Int) (echo : Bool) (s : St) (w : Wakeup)
    (hfull : s.priv.pwlen = PWBUF_SIZE) (hn : 0 < w.nfds) (ht : w.now ≤ s.deadline)
    (hr : 0 < w.nread) (hb : nonControl (w.byte % 256)) :
    ∃ s', wake G mblen echo s w = .exit 0 none s' ∧ s'.priv.pwbuf = s.priv.pwbuf ∧
      s'.priv.pwlen = s.priv.pwlen := by
  obtain ⟨hb1, hb2, hb3⟩ := hb
  unfold wake
  simp only
  rw [if_neg (by omega), if_neg (by omega), if_neg (by omega), if_neg (by omega)]
  unfold handleKey
  simp only
  rw [if_neg (by omega), if_neg (by omega), if_neg (by omega), if_neg (by omega),
    if_neg (by omega), if_neg (by omega), if_neg (by omega)]
  split_ifs with hd hroom hroom
  all_goals first
    | (simp only at hroom; omega)
    | exact ⟨_, rfl, rfl, rfl⟩

/-- C4. Capacity: at every point of every run `pwlen ≤ PWBUF_SIZE`; a
non-control byte that arrives when `pwlen = PWBUF_SIZE` ends the loop with
status 0 and is not stored (`pwbuf` and `pwlen` are unchanged); and typing 257
non-control bytes makes `Prompt` return 0 without a response, the buffer
holding the first 256 of them when the last one arrives. -/
theorem Prompt_capacity (G : Settings) (mblen : List Nat → Int) (echo : Bool) (priv0 : Priv)
    (now0 : Int) :
    (∀ events rand s, Prompt G mblen echo priv0 now0 events rand = .collecting s →
      s.priv.pwlen ≤ PWBUF_SIZE) ∧
    (∀ (s : St) (w : Wakeup), s.priv.pwlen = PWBUF_SIZE → 0 < w.nfds → w.now ≤ s.deadline →
      0 < w.nread → nonControl (w.byte % 256) →
      ∃ s', wake G mblen echo s w = .exit 0 none s' ∧ s'.priv.pwbuf = s.priv.pwbuf ∧
        s'.priv.pwlen = s.priv.pwlen) ∧
    (∀ (str : List Nat) (ws rest : List Wakeup) (rand : List Nat),
      str.length = PWBUF_SIZE + 1 → (∀ b ∈ str, nonControl b) →
      ws.map Wakeup.byte = str →
      Typed G.prompt_timeout (now0 + G.prompt_timeout) ws →
      (bumpN PWBUF_SIZE 0 rand).isSome →
      ∃ s priv rand',
        Prompt G mblen echo priv0 now0 ws.dropLast rand = .collecting s ∧
        s.priv.pwlen = PWBUF_SIZE ∧
        bytes s.priv.pwbuf 0 s.priv.pwlen = str.dropLast ∧
        Prompt G mblen echo priv0 now0 (ws ++ rest) rand = .returned 0 none priv rest rand') := by
  refine ⟨?_, fun s w => wake_full G mblen echo s w, ?_⟩
  · intro events rand s h
    exact promptLoop_invariant G mblen echo (fun s => s.priv.pwlen ≤ PWBUF_SIZE)
      (fun s w s' hI hw => wake_pwlen_le G mblen echo s s' w hw hI) events _ s
      (by show (promptStart G mblen echo priv0 now0 rand).priv.pwlen ≤ PWBUF_SIZE
          rw [(promptStart_frame G mblen echo priv0 now0 rand).2.1]; exact Nat.zero_le _) h
  · intro str ws rest rand hlen hnc hmap htyped hbump
    obtain ⟨hf1, hf2, hf3, hf4, hf5⟩ := promptStart_frame G mblen echo priv0 now0 rand
    obtain ⟨⟨p, rs⟩, hpr⟩ := Option.isSome_iff_exists.mp hbump
    have hne : str ≠ [] := by
      intro h0; rw [h0] at hlen; simp [PWBUF_SIZE] at hlen
    have hsplit : str = str.dropLast ++ [str.getLast hne] := (List.dropLast_append_getLast hne).symm
    have hdl : str.dropLast.length = PWBUF_SIZE := by simp [hlen]
    obtain ⟨pre, s', w, hws, hrun, hwb, hn, ht, hr, hl, hbytes, _, _⟩ :=
      typing_run G mblen echo str.dropLast ws (promptStart G mblen echo priv0 now0 rand)
        (str.getLast hne) p rs (by rw [hmap]; exact hsplit)
        (fun b hb => hnc b (List.mem_of_mem_dropLast hb)) (by rw [hf4]; exact htyped)
        (by rw [hf2, hdl]; omega) (by rw [hf3, hf5, hdl]; exact hpr)
    have hfull : s'.priv.pwlen = PWBUF_SIZE := by rw [hl, hf2, hdl]; omega
    have hlast : nonControl (w.byte % 256) := by
      have h1 : nonControl w.byte := by rw [hwb]; exact hnc _ (List.getLast_mem hne)
      rw [Nat.mod_eq_of_lt h1.2.1]; exact h1
    obtain ⟨s'', hx, _, _⟩ := wake_full G mblen echo s' w hfull hn ht hr hlast
    refine ⟨s', cleanup s''.priv, s''.rand, ?_, hfull, ?_, ?_⟩
    · rw [hws, List.dropLast_concat]; exact hrun
    · rw [hbytes, hf2, hf1]; simp [bytes]
    · unfold Prompt
      rw [hws, List.append_assoc, promptLoop_append G mblen echo pre _ _ _ hrun]
      simp only [List.singleton_append, promptLoop, hx]
      rfl

set_option maxRecDepth 100000 in
/-- Witness of C4: typing 257 times `'a'` makes `Prompt` return 0. -/
theorem Prompt_capacity_witness :
    longInput.length = PWBUF_SIZE + 1 ∧ (∀ b ∈ longInput, nonControl b) ∧
    longTyping.map Wakeup.byte = longInput ∧
    Typed exampleSettings.prompt_timeout (0 + exampleSettings.prompt_timeout) longTyping ∧
    (bumpN PWBUF_SIZE 0 longRand).isSome ∧
    ∃ s priv rand',
      Prompt exampleSettings mblenUtf8 false zeroPriv 0 longTyping.dropLast longRand
        = .collecting s ∧
      s.priv.pwlen = PWBUF_SIZE ∧
      bytes s.priv.pwbuf 0 s.priv.pwlen = longInput.dropLast ∧
      Prompt exampleSettings mblenUtf8 false zeroPriv 0 (longTyping ++ []) longRand
        = .returned 0 none priv [] rand' :=
  ⟨by decide, by decide, by decide, by decide, by decide,
    (Prompt_capacity exampleSettings mblenUtf8 false zeroPriv 0).2.2 longInput longTyping []
      longRand (by decide) (by decide) (by decide) (by decide) (by decide)⟩

/-! ## Backspace on whole characters -/

theorem bytes_add (buf : Nat → Nat) (off n m : Nat) :
    bytes buf off (n + m) = bytes buf off n ++ bytes buf (off + n) m := by
  unfold bytes
  rw [List.range_add, List.map_append, List.map_map]
  congr 1
  apply List.map_congr_left
  intro i _
  simp [Nat.add_assoc]

theorem bytes_split (buf : Nat → Nat) (off n : Nat) (a b : List Nat)
    (h : bytes buf off n = a ++ b) : bytes buf (off + a.length) (n - a.length) = b := by
  have hlen : n = a.length + b.length := by
    have := congrArg List.length h
    simpa [bytes_length] using this
  subst hlen
  rw [bytes_add] at h
  have := List.append_inj h (by simp [bytes_length])
  simpa using this.2

theorem backwardSkip_exit (mblen : List Nat → Int) (pwbuf : Nat → Nat) (pwlen : Nat)
    (fuel pos prevpos : Nat) (len : Int) (h : ¬ pos < pwlen) :
    backwardSkip mblen pwbuf pwlen fuel pos prevpos len = (pos, prevpos, len) := by
  cases fuel with
  | zero => rfl
  | succ fuel => simp only [backwardSkip]; rw [if_neg h]

/-- On a buffer cut into characters by `mblen`, the backward skip stops with
`prevpos` at the start of the last character. -/
theorem backwardSkip_delimited (mblen : List Nat → Int) (pwbuf : Nat → Nat) (pwlen : Nat)
    (c : List Nat) :
    ∀ (cs : List (List Nat)) (fuel pos prevpos : Nat) (len : Int),
      Delimits mblen (cs ++ [c]) → pos ≤ pwlen →
      bytes pwbuf pos (pwlen - pos) = (cs ++ [c]).flatten → pwlen - pos ≤ fuel →
      (backwardSkip mblen pwbuf pwlen fuel pos prevpos len).2.1 = pos + cs.flatten.length := by
  intro cs
  induction cs with
  | nil =>
    intro fuel pos prevpos len hd hpos hb hfuel
    simp only [List.nil_append, Delimits, List.flatten_cons, List.flatten_nil] at hd hb
    obtain ⟨hc, hm, _⟩ := hd
    have hl : pwlen - pos = c.length := by
      have := congrArg List.length hb
      simpa [bytes_length] using this
    cases fuel with
    | zero => omega
    | succ fuel =>
      simp only [backwardSkip]
      rw [if_pos (by omega), hb, hm, if_neg (by omega)]
      rw [backwardSkip_exit _ _ _ _ _ _ _ (by simp; omega)]
      simp
  | cons c0 cs ih =>
    intro fuel pos prevpos len hd hpos hb hfuel
    simp only [List.cons_append, Delimits, List.flatten_cons] at hd hb
    obtain ⟨hc, hm, hd'⟩ := hd
    have hm : mblen (c0 ++ (cs ++ [c]).flatten) = c0.length := hm
    have hd' : Delimits mblen (cs ++ [c]) := hd'
    have hl : pwlen - pos = c0.length + (cs ++ [c]).flatten.length := by
      have := congrArg List.length hb
      simpa [bytes_length] using this
    cases fuel with
    | zero => omega
    | succ fuel =>
      simp only [backwardSkip]
      rw [if_pos (by omega), hb, hm, if_neg (by omega)]
      have hb' := bytes_split pwbuf pos (pwlen - pos) c0 _ hb
      have hsub : pwlen - pos - c0.length = pwlen - (pos + c0.length) := by omega
      rw [hsub] at hb'
      simp only [Int.toNat_ofNat]
      rw [ih fuel (pos + c0.length) pos _ hd' (by omega) hb' (by omega)]
      simp only [List.flatten_cons, List.length_append]
      omega

theorem Delimits_flatten_pos (mblen : List Nat → Int) (cs : List (List Nat)) (c : List Nat)
    (hd : Delimits mblen (cs ++ [c])) :
    0 < c.length ∧ (cs ≠ [] → 0 < cs.flatten.length) := by
  induction cs with
  | nil =>
    simp only [List.nil_append, Delimits] at hd
    exact ⟨hd.1, fun h => absurd rfl h⟩
  | cons c0 cs ih =>
    simp only [List.cons_append, Delimits] at hd
    have hd' : Delimits mblen (cs ++ [c]) := hd.2.2
    refine ⟨(ih hd').1, fun _ => ?_⟩
    simp only [List.flatten_cons, List.length_append]
    omega

/-- C7. Multi-byte delete safety: when the buffer is the concatenation of the
complete characters `cs ++ [c]` (as `mblen` delimits them), a Backspace or
Delete byte sets `pwlen` to the start offset of the last character `c`: its
bytes are removed, `pwbuf` is untouched, and what remains is exactly the
characters `cs`.  (When a character remains the marker is bumped, which needs
the `rand()` outputs to let that rejection loop end.) -/
theorem backspace_removes_last_char (G : Settings) (mblen : List Nat → Int) (echo : Bool)
    (s : St) (w : Wakeup) (cs : List (List Nat)) (c : List Nat)
    (hbuf : bytes s.priv.pwbuf 0 s.priv.pwlen = (cs ++ [c]).flatten)
    (hd : Delimits mblen (cs ++ [c]))
    (hn : 0 < w.nfds) (ht : w.now ≤ s.deadline) (hr : 0 < w.nread)
    (hk : w.byte % 256 = 0x08 ∨ w.byte % 256 = 0x7F)
    (hrand : cs ≠ [] → (BumpDisplayMarker (s.priv.displaymarker : Int) s.rand).isSome) :
    ∃ s', wake G mblen echo s w = .cont s' ∧
      s'.priv.pwlen = cs.flatten.length ∧
      s'.priv.pwlen + c.length = s.priv.pwlen ∧
      s'.priv.pwbuf = s.priv.pwbuf ∧
      bytes s'.priv.pwbuf 0 s'.priv.pwlen = cs.flatten := by
  obtain ⟨hcpos, hcs⟩ := Delimits_flatten_pos mblen cs c hd
  have hlen : s.priv.pwlen = cs.flatten.length + c.length := by
    have := congrArg List.length hbuf
    simpa [bytes_length] using this
  have hskip := backwardSkip_delimited mblen s.priv.pwbuf s.priv.pwlen c cs s.priv.pwlen 0 0
    s.priv.len hd (Nat.zero_le _) (by simpa using hbuf) (by omega)
  rw [Nat.zero_add] at hskip
  have hpre : bytes s.priv.pwbuf 0 cs.flatten.length = cs.flatten := by
    rw [hlen, bytes_add, List.flatten_append] at hbuf
    exact (List.append_inj hbuf (by simp [bytes_length])).1
  unfold wake
  simp only
  rw [if_neg (by omega), if_neg (by omega), if_neg (by omega), if_neg (by omega)]
  unfold handleKey
  simp only
  rw [if_pos hk]
  split_ifs with h1 h2 h3 h4 h5
  all_goals first
    | (simp only [hskip] at *; omega)
    | exact ⟨_, rfl, hskip, by simp only [hskip]; omega, rfl, by simp only [hskip]; exact hpre⟩
    | (have hne : cs ≠ [] := by
         intro h0; subst h0; simp only [hskip] at *; simp at *
       obtain ⟨⟨p, rs⟩, hb⟩ := Option.isSome_iff_exists.mp (hrand hne)
       simp only [bumpMarker, hb]
       exact ⟨_, rfl, hskip, by simp only [hskip]; omega, rfl,
         by simp only [hskip]; exact hpre⟩)

/-- Witness of C7: Backspace on `"aé"` leaves `"a"`. -/
theorem backspace_removes_last_char_witness :
    bytes twoCharState.priv.pwbuf 0 twoCharState.priv.pwlen = ([[0x61]] ++ [[0xC3, 0xA9]]).flatten ∧
    Delimits mblenUtf8 ([[0x61]] ++ [[0xC3, 0xA9]]) ∧
    ∃ s', wake exampleSettings mblenUtf8 false twoCharState (key 1 0x08) = .cont s' ∧
      s'.priv.pwlen = [[0x61]].flatten.length ∧
      s'.priv.pwlen + [0xC3, 0xA9].length = twoCharState.priv.pwlen ∧
      s'.priv.pwbuf = twoCharState.priv.pwbuf ∧
      bytes s'.priv.pwbuf 0 s'.priv.pwlen = [[0x61]].flatten :=
  ⟨by decide, by decide,
    backspace_removes_last_char exampleSettings mblenUtf8 false twoCharState (key 1 0x08)
      [[0x61]] [0xC3, 0xA9] (by decide) (by decide) (by decide) (by decide) (by decide)
      (by decide) (fun _ => by decide)⟩

/-! ## Rendering -/

theorem cstr_bytes (buf : Nat → Nat) (n : Nat) (h : ∀ i, i < n → buf i ≠ 0) (h0 : buf n = 0) :
    cstr (bytes buf 0 (n + 1)) = bytes buf 0 n := by
  rw [bytes_add]
  have : bytes buf (0 + n) 1 = [0] := by simp [bytes, List.range_succ, h0]
  rw [this]
  apply cstr_terminated
  intro b hb
  simp only [bytes, List.mem_map, List.mem_range] at hb
  obtain ⟨i, hi, hbi⟩ := hb
  rw [← hbi, Nat.zero_add]
  exact h i hi

/-- In the hidden and paranoid modes the C string in `displaybuf` is exactly
`displaylen` bytes long, and `displaylen` is 0 and 32. -/
theorem render_hidden_paranoid (G : Settings) (mblen : List Nat → Int) (blink : Bool) (p : Priv)
    (hmode : G.hide_password_completely = true ∨
      (G.disco = false ∧ G.paranoid_password = true)) :
    (cstr (bytes (render G mblen false blink p).displaybuf 0
        ((render G mblen false blink p).displaylen + 1))).length
      = (render G mblen false blink p).displaylen ∧
    (render G mblen false blink p).displaylen
      = if G.hide_password_completely then 0 else PARANOID_PASSWORD_LENGTH := by
  unfold render
  by_cases hh : G.hide_password_completely = true
  · simp only [Bool.false_eq_true, if_false, hh, if_true, and_true]
    rw [cstr_bytes _ 0 (fun i hi => absurd hi (Nat.not_lt_zero i)) (by simp [store])]
    simp [bytes]
  · rcases hmode with h | ⟨hd, hp⟩
    · exact absurd h hh
    · simp only [Bool.false_eq_true, if_false, hh, hd, hp, if_true, and_true]
      rw [cstr_bytes _ PARANOID_PASSWORD_LENGTH ?_ (by simp [store]), bytes_length]
      intro i hi
      simp only [store, memset, PARANOID_PASSWORD_LENGTH_eq] at hi ⊢
      split_ifs <;> omega

/-- C8. Length hiding: in the hidden, disco and paranoid modes, two states
of `priv` with any buffers of lengths 1..256 and the same marker are rendered
(at the same blink phase) with the same `displaylen`; the display bytes are the
same whenever the display memory was the same before; and in the hidden and
paranoid modes the C strings in `displaybuf` have the same length whatever
the display memory held before. -/
theorem render_hides_length (G : Settings) (mblen : List Nat → Int) (blink : Bool) (p q : Priv)
    (hmode : G.hide_password_completely = true ∨ G.disco = true ∨ G.paranoid_password = true)
    (_hp : 1 ≤ p.pwlen ∧ p.pwlen ≤ PWBUF_SIZE) (_hq : 1 ≤ q.pwlen ∧ q.pwlen ≤ PWBUF_SIZE)
    (hm : p.displaymarker = q.displaymarker) :
    (render G mblen false blink p).displaylen = (render G mblen false blink q).displaylen ∧
    (p.displaybuf = q.displaybuf →
      (render G mblen false blink p).displaybuf = (render G mblen false blink q).displaybuf) ∧
    (G.hide_password_completely = true ∨ G.disco = false →
      (cstr (bytes (render G mblen false blink p).displaybuf 0
          ((render G mblen false blink p).displaylen + 1))).length
        = (cstr (bytes (render G mblen false blink q).displaybuf 0
          ((render G mblen false blink q).displaylen + 1))).length) := by
  refine ⟨?_, ?_, ?_⟩
  · obtain ⟨t, pp, hc, d⟩ := G
    simp only at hmode
    unfold render
    cases hc <;> cases d <;> cases pp <;> simp_all
  · intro hb
    obtain ⟨t, pp, hc, d⟩ := G
    simp only at hmode
    unfold render
    cases hc <;> cases d <;> cases pp <;> simp_all
  · intro hsel
    have hmode' : G.hide_password_completely = true ∨
        (G.disco = false ∧ G.paranoid_password = true) := by
      rcases hsel with h | h
      · exact Or.inl h
      · rcases hmode with h' | h' | h'
        · exact Or.inl h'
        · rw [h] at h'; exact absurd h' (by decide)
        · exact Or.inr ⟨h, h'⟩
    rw [(render_hidden_paranoid G mblen blink p hmode').1,
      (render_hidden_paranoid G mblen blink q hmode').1,
      (render_hidden_paranoid G mblen blink p hmode').2,
      (render_hidden_paranoid G mblen blink q hmode').2]

/-- Witness of C8: in paranoid mode `"a"` and `"hunter2"` are rendered alike. -/
theorem render_hides_length_witness :
    (exampleSettings.hide_password_completely = true ∨ exampleSettings.disco = true ∨
      exampleSettings.paranoid_password = true) ∧
    (1 ≤ shortPriv.pwlen ∧ shortPriv.pwlen ≤ PWBUF_SIZE) ∧
    (1 ≤ longerPriv.pwlen ∧ longerPriv.pwlen ≤ PWBUF_SIZE) ∧
    shortPriv.displaymarker = longerPriv.displaymarker ∧
    ((render exampleSettings mblenUtf8 false true shortPriv).displaylen
        = (render exampleSettings mblenUtf8 false true longerPriv).displaylen ∧
     (shortPriv.displaybuf = longerPriv.displaybuf →
      (render exampleSettings mblenUtf8 false true shortPriv).displaybuf
        = (render exampleSettings mblenUtf8 false true longerPriv).displaybuf) ∧
     (exampleSettings.hide_password_completely = true ∨ exampleSettings.disco = false →
      (cstr (bytes (render exampleSettings mblenUtf8 false true shortPriv).displaybuf 0
          ((render exampleSettings mblenUtf8 false true shortPriv).displaylen + 1))).length
        = (cstr (bytes (render exampleSettings mblenUtf8 false true longerPriv).displaybuf 0
          ((render exampleSettings mblenUtf8 false true longerPriv).displaylen + 1))).length)) :=
  ⟨by decide, by decide, by decide, by decide,
    render_hides_length exampleSettings mblenUtf8 true shortPriv longerPriv (by decide)
      (by decide) (by decide) (by decide)⟩

/-! ## The deadline -/

theorem handleKey_deadline (mblen : List Nat → Int) (s s' : St)
    (h : handleKey mblen s = .cont s') : s'.deadline = s.deadline := by
  unfold handleKey at h
  simp only at h
  split_ifs at h with h1 h2 h3 h4 h5 h6 h7 h8 h9 h10
  all_goals first
    | (simp only [Step.cont.injEq] at h
       subst h
       rfl)
    | (split at h
       · simp at h
       · rename_i s1 hb
         simp only [Step.cont.injEq] at h
         obtain ⟨p, rs, _, hs1⟩ := bumpMarker_some _ _ hb
         subst hs1
         subst h
         rfl)

theorem wake_deadline (G : Settings) (mblen : List Nat → Int) (echo : Bool) (s s' : St)
    (w : Wakeup) (h : wake G mblen echo s w = .cont s') :
    s'.deadline ≤ w.now + G.prompt_timeout := by
  unfold wake at h
  simp only at h
  split_ifs at h with h1 h2 h3 h4 h5 h6
  all_goals first
    | (simp only [Step.cont.injEq] at h
       subst h
       simp only [redraw]
       omega)
    | (have hk := handleKey_deadline mblen _ _ h
       simp only at hk
       omega)

theorem wake_late (G : Settings) (mblen : List Nat → Int) (echo : Bool) (s : St) (w : Wakeup)
    (h : s.deadline < w.now) : ∃ s', wake G mblen echo s w = .exit 0 none s' := by
  unfold wake
  simp only
  split_ifs with h1
  · exact ⟨_, rfl⟩
  · exact ⟨_, rfl⟩

/-- C9. Clock-step safety: after every wake-up that does not end the prompt
the deadline is at most that wake-up's clock reading plus `prompt_timeout`,
whatever the readings were before; so a next wake-up whose reading exceeds
the previous reading by more than `prompt_timeout` ends the prompt with
status 0. -/
theorem deadline_clock_step (G : Settings) (mblen : List Nat → Int) (echo : Bool) :
    (∀ (s : St) (w : Wakeup) (s' : St), wake G mblen echo s w = .cont s' →
      s'.deadline ≤ w.now + G.prompt_timeout) ∧
    (∀ (s : St) (w1 : Wakeup) (s1 : St) (w2 : Wakeup), wake G mblen echo s w1 = .cont s1 →
      w1.now + G.prompt_timeout < w2.now →
      ∃ s2, wake G mblen echo s1 w2 = .exit 0 none s2) := by
  refine ⟨fun s w s' h => wake_deadline G mblen echo s s' w h, ?_⟩
  intro s w1 s1 w2 h hlate
  have := wake_deadline G mblen echo s s1 w1 h
  exact wake_late G mblen echo s1 w2 (by omega)

/-- Witness of C9: the deadline stood at 1000300 when the clock was set back;
a blink at reading 500 brings it down to 800, and the wake-up at reading 801
times out. -/
theorem deadline_clock_step_witness :
    ∃ s1, wake exampleSettings mblenUtf8 false steppedState (blink 500) = .cont s1 ∧
      s1.deadline ≤ (blink 500).now + exampleSettings.prompt_timeout ∧
      (blink 500).now + exampleSettings.prompt_timeout < (key 801 0x61).now ∧
      ∃ s2, wake exampleSettings mblenUtf8 false s1 (key 801 0x61) = .exit 0 none s2 :=
  ⟨_, rfl,
    (deadline_clock_step exampleSettings mblenUtf8 false).1 steppedState (blink 500) _ rfl,
    by decide,
    (deadline_clock_step exampleSettings mblenUtf8 false).2 steppedState (blink 500) _
      (key 801 0x61) rfl (by decide)⟩

/-! ## The packet loop -/

theorem packetLoop_trace {σ : Type} (PT : PacketTypes)
    (P : Bool → List Nat → σ → Int × List Nat × σ) (inbound : List Packet) :
    ∀ (env : σ) (written : List Packet),
      packetLoop PT (returning P) env written inbound
        = .ended (written ++ (dispatchTrace PT P env (requests PT inbound)).1.flatten)
            (inbound.drop ((requests PT inbound).length + 1))
            (dispatchTrace PT P env (requests PT inbound)).2 := by
  induction inbound with
  | nil => intro env written; simp [packetLoop, requests, dispatchTrace]
  | cons p rest ih =>
    intro env written
    obtain ⟨type, message⟩ := p
    simp only [packetLoop, returning]
    split_ifs with h1 h2 h3 h4 h5 h6 h7
    · rw [ih]
      simp [requests, isRequest, h1, dispatchTrace, responseTo]
    · rw [ih]
      simp [requests, isRequest, h2, dispatchTrace, responseTo]
    · rw [ih]
      subst h3
      simp [requests, isRequest, h1, h2, h4, dispatchTrace, responseTo]
    · rw [ih]
      subst h3
      simp [requests, isRequest, h1, h2, h4, dispatchTrace, responseTo]
    · rw [ih]
      subst h5
      simp [requests, isRequest, h1, h2, h3, h6, dispatchTrace, responseTo]
    · rw [ih]
      subst h5
      simp [requests, isRequest, h1, h2, h3, h6, dispatchTrace, responseTo]
    · simp [requests, isRequest, h1, h2, h3, h5, dispatchTrace]
    · simp [requests, isRequest, h1, h2, h3, h5, dispatchTrace]

/-- C10. Dispatch trace: for every inbound packet sequence and every outcome
of the prompts (`P`), the packet loop of `Authenticate` reaches `done:` having
written exactly the responses the dispatch table gives to the packets that
precede the first packet of type 0 or of unrecognised type, in request order,
and having read nothing after that packet.  The table gives nothing to
InfoMessage and ErrorMessage and exactly one packet to a prompt:
ResponseLikeUsername / ResponseLikePassword with the secret when the prompt
(echo on / off) returned non-zero, else ResponseCancelled with empty payload. -/
theorem packetLoop_dispatch {σ : Type} (PT : PacketTypes)
    (P : Bool → List Nat → σ → Int × List Nat × σ) (hPT : PT.caseLabelsDistinct) :
    (∀ (env : σ) (inbound : List Packet),
      packetLoop PT (returning P) env [] inbound
        = .ended (dispatchTrace PT P env (requests PT inbound)).1.flatten
            (inbound.drop ((requests PT inbound).length + 1))
            (dispatchTrace PT P env (requests PT inbound)).2) ∧
    (∀ p : Packet, isRequest PT p = false ↔
      (p.1 = 0 ∨ (p.1 ≠ PT.PTYPE_INFO_MESSAGE ∧ p.1 ≠ PT.PTYPE_ERROR_MESSAGE ∧
        p.1 ≠ PT.PTYPE_PROMPT_LIKE_USERNAME ∧ p.1 ≠ PT.PTYPE_PROMPT_LIKE_PASSWORD))) ∧
    (∀ (env : σ) (message : List Nat),
      responseTo PT P env (PT.PTYPE_INFO_MESSAGE, message) = ([], env) ∧
      responseTo PT P env (PT.PTYPE_ERROR_MESSAGE, message) = ([], env) ∧
      responseTo PT P env (PT.PTYPE_PROMPT_LIKE_USERNAME, message)
        = ([if (P true message env).1 ≠ 0
              then (PT.PTYPE_RESPONSE_LIKE_USERNAME, cstr (P true message env).2.1)
              else (PT.PTYPE_RESPONSE_CANCELLED, [])], (P true message env).2.2) ∧
      responseTo PT P env (PT.PTYPE_PROMPT_LIKE_PASSWORD, message)
        = ([if (P false message env).1 ≠ 0
              then (PT.PTYPE_RESPONSE_LIKE_PASSWORD, cstr (P false message env).2.1)
              else (PT.PTYPE_RESPONSE_CANCELLED, [])], (P false message env).2.2)) ∧
    (∀ (env : σ) (reqs : List Packet),
      (dispatchTrace PT P env reqs).1.length = reqs.length ∧
      ∀ out ∈ (dispatchTrace PT P env reqs).1, out.length ≤ 1) := by
  obtain ⟨d1, d2, d3, d4, d5, d6, d7, d8, d9, d10⟩ := hPT
  refine ⟨?_, ?_, ?_, ?_⟩
  · intro env inbound
    have := packetLoop_trace PT P inbound env []
    simpa using this
  · intro p
    simp only [isRequest, decide_eq_false_iff_not, not_or]
    constructor
    · intro h; exact Or.inr h
    · rintro (h | h)
      · rw [h]; exact ⟨Ne.symm d1, Ne.symm d2, Ne.symm d3, Ne.symm d4⟩
      · exact h
  · intro env message
    refine ⟨?_, ?_, ?_, ?_⟩
    · simp [responseTo]
    · simp [responseTo]
    · simp [responseTo, Ne.symm d6, Ne.symm d8]
    · simp [responseTo, Ne.symm d7, Ne.symm d9, Ne.symm d10]
  · intro env reqs
    induction reqs generalizing env with
    | nil => simp [dispatchTrace]
    | cons p ps ih =>
      simp only [dispatchTrace, List.length_cons, List.mem_cons]
      refine ⟨by rw [(ih _).1], ?_⟩
      rintro out (h | h)
      · rw [h]; unfold responseTo; split_ifs <;> simp
      · exact (ih _).2 out h

/-- Witness of C10: an info message, a username prompt answered `"me"`, a
cancelled password prompt and the end packet give two responses; the packet
after the end packet is not read. -/
theorem packetLoop_dispatch_witness :
    authprotoTypes.caseLabelsDistinct ∧
    packetLoop authprotoTypes (returning scriptedPrompt) exampleOutcomes [] exampleInbound
      = .ended [(0x75, [0x6D, 0x65]), (0x78, [])] [(0x50, [0x3F])] [] ∧
    packetLoop authprotoTypes (returning scriptedPrompt) exampleOutcomes [] exampleInbound
      = .ended
          (dispatchTrace authprotoTypes scriptedPrompt exampleOutcomes
            (requests authprotoTypes exampleInbound)).1.flatten
          (exampleInbound.drop ((requests authprotoTypes exampleInbound).length + 1))
          (dispatchTrace authprotoTypes scriptedPrompt exampleOutcomes
            (requests authprotoTypes exampleInbound)).2 :=
  ⟨by decide, rfl,
    (packetLoop_dispatch authprotoTypes scriptedPrompt (by decide)).1 exampleOutcomes
      exampleInbound⟩

/-! ## The session scenarios -/

/-- Typing `str` (at most 256 non-control bytes) and Return, in time, makes
`Prompt` return 1 with `str` and a NUL, leaving the wake-ups that follow. -/
theorem Prompt_typing (G : Settings) (mblen : List Nat → Int) (echo : Bool) (priv0 : Priv)
    (now0 : Int) (str : List Nat) (ws : List Wakeup) (ret : Nat) (rest : List Wakeup)
    (rand : List Nat) (hlen : str.length ≤ PWBUF_SIZE) (hnc : ∀ b ∈ str, nonControl b)
    (hret : ret = 0x0D ∨ ret = 0x0A) (hmap : ws.map Wakeup.byte = str ++ [ret])
    (htyped : Typed G.prompt_timeout (now0 + G.prompt_timeout) ws)
    (hbump : (bumpN str.length 0 rand).isSome) :
    ∃ priv rand',
      Prompt G mblen echo priv0 now0 (ws ++ rest) rand
        = .returned 1 (some (str ++ [0])) priv rest rand' := by
  obtain ⟨hf1, hf2, hf3, hf4, hf5⟩ := promptStart_frame G mblen echo priv0 now0 rand
  obtain ⟨⟨p, rs⟩, hpr⟩ := Option.isSome_iff_exists.mp hbump
  obtain ⟨pre, s', w, hws, hrun, hwb, hn, ht, hr, hl, hbytes, _, _⟩ :=
    typing_run G mblen echo str ws (promptStart G mblen echo priv0 now0 rand) ret p rs
      hmap hnc (by rw [hf4]; exact htyped) (by rw [hf2]; omega)
      (by rw [hf3, hf5]; exact hpr)
  have hret' : isReturnWake s'.deadline w := by
    refine ⟨hn, ht, hr, ?_⟩
    rw [hwb]
    rcases hret with h | h <;> simp [h]
  obtain ⟨s'', hs''⟩ := wake_return G mblen echo s' w hret'
  refine ⟨cleanup s''.priv, s''.rand, ?_⟩
  unfold Prompt
  rw [hws, List.append_assoc, promptLoop_append G mblen echo pre _ _ _ hrun]
  simp only [List.singleton_append, promptLoop, hs'']
  rw [hbytes, hf2, hf1]
  simp [bytes]

/-- A keystroke of Escape (or of a NUL byte) that arrives in time ends the
loop with status 0 and draws no `rand()` output. -/
theorem wake_escape (G : Settings) (mblen : List Nat → Int) (echo : Bool) (s : St) (w : Wakeup)
    (hn : 0 < w.nfds) (ht : w.now ≤ s.deadline) (hr : 0 < w.nread)
    (hk : w.byte % 256 = 0x00 ∨ w.byte % 256 = 0x1B) :
    ∃ s', wake G mblen echo s w = .exit 0 none s' ∧ s'.rand = s.rand := by
  unfold wake
  simp only
  rw [if_neg (by omega), if_neg (by omega), if_neg (by omega), if_neg (by omega)]
  unfold handleKey
  simp only
  rw [if_neg (by omega), if_neg (by omega), if_neg (by omega), if_neg (by omega), if_pos hk]
  split_ifs <;> exact ⟨_, rfl, rfl⟩

/-- Escape as the first keystroke makes `Prompt` return 0 without a response. -/
theorem Prompt_escape (G : Settings) (mblen : List Nat → Int) (echo : Bool) (priv0 : Priv)
    (now0 : Int) (w : Wakeup) (rest : List Wakeup) (rand : List Nat)
    (hn : 0 < w.nfds) (ht : w.now ≤ now0 + G.prompt_timeout) (hr : 0 < w.nread)
    (hk : w.byte % 256 = 0x1B) :
    ∃ priv, Prompt G mblen echo priv0 now0 (w :: rest) rand = .returned 0 none priv rest rand := by
  obtain ⟨_, _, _, hf4, hf5⟩ := promptStart_frame G mblen echo priv0 now0 rand
  obtain ⟨s', hx, hrand⟩ := wake_escape G mblen echo (promptStart G mblen echo priv0 now0 rand) w
    hn (by rw [hf4]; exact ht) hr (Or.inr hk)
  refine ⟨cleanup s'.priv, ?_⟩
  unfold Prompt
  simp only [promptLoop, hx]
  rw [hrand, hf5]

/-- C11. Protocol scenario: when the helper sends one PromptLikePassword and
then the end packet (type 0), `Authenticate` writes exactly one packet, reads
nothing after the end packet and waits for the helper.  The packet is
ResponseLikePassword(`str`) when the keyboard input is `str` (at most 256
non-control bytes) followed by Return, and ResponseCancelled with empty
payload when the input is Escape. -/
theorem Authenticate_scenario (PT : PacketTypes) (G : Settings) (mblen : List Nat → Int)
    (H : Plumbing) (hPT : PT.caseLabelsDistinct)
    (hH : H.pipeRequest = 0 ∧ H.pipeResponse = 0 ∧ H.childpid ≠ -1 ∧ H.childpid ≠ 0 ∧
      H.waitProc ≠ 0)
    (msg pl : List Nat) (later : List Packet) (now0 : Int) (priv0 : Priv)
    (starts : List (Int × Priv)) (rest : List Wakeup) (rand : List Nat) :
    (∀ (str : List Nat) (ws : List Wakeup) (ret : Nat),
      str.length ≤ PWBUF_SIZE → (∀ b ∈ str, nonControl b) → (ret = 0x0D ∨ ret = 0x0A) →
      ws.map Wakeup.byte = str ++ [ret] →
      Typed G.prompt_timeout (now0 + G.prompt_timeout) ws →
      (bumpN str.length 0 rand).isSome →
      ∃ rand',
        Authenticate PT (promptCall G mblen) H
            { starts := (now0, priv0) :: starts, events := ws ++ rest, rand := rand }
            ((PT.PTYPE_PROMPT_LIKE_PASSWORD, msg) :: (0, pl) :: later)
          = .returned (if H.status ≠ 0 then 1 else 0)
              [(PT.PTYPE_RESPONSE_LIKE_PASSWORD, str)] later true (decide (H.status = 0))
              { starts := starts, events := rest, rand := rand' }) ∧
    (∀ w : Wakeup, 0 < w.nfds → w.now ≤ now0 + G.prompt_timeout → 0 < w.nread →
      w.byte % 256 = 0x1B →
      Authenticate PT (promptCall G mblen) H
          { starts := (now0, priv0) :: starts, events := w :: rest, rand := rand }
          ((PT.PTYPE_PROMPT_LIKE_PASSWORD, msg) :: (0, pl) :: later)
        = .returned (if H.status ≠ 0 then 1 else 0)
            [(PT.PTYPE_RESPONSE_CANCELLED, [])] later true (decide (H.status = 0))
            { starts := starts, events := rest, rand := rand }) := by
  obtain ⟨d1, d2, d3, d4, d5, d6, d7, d8, d9, d10⟩ := hPT
  obtain ⟨h1, h2, h3, h4, h5⟩ := hH
  constructor
  · intro str ws ret hlen hnc hret hmap htyped hbump
    obtain ⟨priv, rand', hp⟩ :=
      Prompt_typing G mblen false priv0 now0 str ws ret rest rand hlen hnc hret hmap htyped hbump
    refine ⟨rand', ?_⟩
    have hz : cstr (str ++ [0]) = str :=
      cstr_terminated str (fun b hb => by have := hnc b hb; unfold nonControl at this; omega)
    simp only [Authenticate, h1, h2, h3, h4, h5, packetLoop, promptCall, hp, ne_eq,
      not_true_eq_false, if_false, Ne.symm d7, Ne.symm d9, Ne.symm d10, if_true, d4,
      Ne.symm d1, Ne.symm d2, Ne.symm d3, Ne.symm d4, one_ne_zero, not_false_eq_true, hz, List.nil_append]
    by_cases hs : H.status = 0 <;> simp [hs]
  · intro w hn ht hr hk
    obtain ⟨priv, hp⟩ := Prompt_escape G mblen false priv0 now0 w rest rand hn ht hr hk
    simp only [Authenticate, h1, h2, h3, h4, h5, packetLoop, promptCall, hp, ne_eq,
      not_true_eq_false, if_false, Ne.symm d7, Ne.symm d9, Ne.symm d10, if_true, d4,
      Ne.symm d1, Ne.symm d2, Ne.symm d3, Ne.symm d4, not_false_eq_true, List.nil_append]
    by_cases hs : H.status = 0 <;> simp [hs]

/-- C12. Authentication verdict: once the helper is started and however the
packet loop ended, `Authenticate` waits for the helper and returns 0 when its
exit status is 0 and 1 when it is not, and plays the success tone exactly when
the status is 0; when a `pipe` call or the fork fails it returns 1 (without
reading, writing or waiting). -/
theorem Authenticate_verdict {σ : Type} (PT : PacketTypes) (prompt : PromptCall σ)
    (H : Plumbing) (env : σ) (inbound : List Packet) :
    (∀ written unread env',
      H.pipeRequest = 0 → H.pipeResponse = 0 → H.childpid ≠ -1 → H.childpid ≠ 0 →
      H.waitProc ≠ 0 → packetLoop PT prompt env [] inbound = .ended written unread env' →
      ∃ ret tone,
        Authenticate PT prompt H env inbound = .returned ret written unread true tone env' ∧
        (ret = 0 ↔ H.status = 0) ∧ (H.status ≠ 0 → ret = 1) ∧ (tone = true ↔ H.status = 0)) ∧
    (H.pipeRequest ≠ 0 ∨ H.pipeResponse ≠ 0 ∨ H.childpid = -1 →
      Authenticate PT prompt H env inbound = .returned 1 [] inbound false false env) := by
  constructor
  · intro written unread env' h1 h2 h3 h4 h5 hloop
    by_cases hs : H.status = 0
    · exact ⟨0, true, by simp [Authenticate, h1, h2, h3, h4, h5, hloop, hs], by simp [hs],
        fun h => absurd hs h, by simp [hs]⟩
    · exact ⟨1, false, by simp [Authenticate, h1, h2, h3, h4, h5, hloop, hs], by simp [hs],
        fun _ => rfl, by simp [hs]⟩
  · intro h
    unfold Authenticate
    by_cases a : H.pipeRequest = 0
    · by_cases b : H.pipeResponse = 0
      · have c : H.childpid = -1 := by
          rcases h with h | h | h
          · exact absurd a h
          · exact absurd b h
          · exact h
        simp [a, b, c]
      · simp [a, b]
    · simp [a]

/-- Witness of C11: with the input `"hunter2\n"` the one packet written is
ResponseLikePassword(`"hunter2"`); with Escape it is ResponseCancelled. -/
theorem Authenticate_scenario_witness :
    authprotoTypes.caseLabelsDistinct ∧
    (startedPlumbing.pipeRequest = 0 ∧ startedPlumbing.pipeResponse = 0 ∧
      startedPlumbing.childpid ≠ -1 ∧ startedPlumbing.childpid ≠ 0 ∧
      startedPlumbing.waitProc ≠ 0) ∧
    hunter2.length ≤ PWBUF_SIZE ∧ (∀ b ∈ hunter2, nonControl b) ∧
    hunter2Return.map Wakeup.byte = hunter2 ++ [0x0A] ∧
    Typed exampleSettings.prompt_timeout (0 + exampleSettings.prompt_timeout) hunter2Return ∧
    (bumpN hunter2.length 0 exampleRand).isSome ∧
    (∃ rand',
      Authenticate authprotoTypes (promptCall exampleSettings mblenUtf8) startedPlumbing
          { starts := (0, zeroPriv) :: [], events := hunter2Return ++ [], rand := exampleRand }
          ((authprotoTypes.PTYPE_PROMPT_LIKE_PASSWORD,
              [0x50, 0x61, 0x73, 0x73, 0x77, 0x6F, 0x72, 0x64, 0x3A]) :: (0, []) :: [])
        = .returned (if startedPlumbing.status ≠ 0 then 1 else 0)
            [(authprotoTypes.PTYPE_RESPONSE_LIKE_PASSWORD, hunter2)] [] true
            (decide (startedPlumbing.status = 0))
            { starts := [], events := [], rand := rand' }) ∧
    Authenticate authprotoTypes (promptCall exampleSettings mblenUtf8) startedPlumbing
        { starts := (0, zeroPriv) :: [], events := key 1 0x1B :: [], rand := exampleRand }
        ((authprotoTypes.PTYPE_PROMPT_LIKE_PASSWORD,
            [0x50, 0x61, 0x73, 0x73, 0x77, 0x6F, 0x72, 0x64, 0x3A]) :: (0, []) :: [])
      = .returned (if startedPlumbing.status ≠ 0 then 1 else 0)
          [(authprotoTypes.PTYPE_RESPONSE_CANCELLED, [])] [] true
          (decide (startedPlumbing.status = 0))
          { starts := [], events := [], rand := exampleRand } :=
  ⟨by decide, by decide, by decide, by decide, by decide, by decide, by decide,
    (Authenticate_scenario authprotoTypes exampleSettings mblenUtf8 startedPlumbing (by decide)
      (by decide) _ [] [] 0 zeroPriv [] [] exampleRand).1 hunter2 hunter2Return 0x0A
      (by decide) (by decide) (by decide) (by decide) (by decide) (by decide),
    (Authenticate_scenario authprotoTypes exampleSettings mblenUtf8 startedPlumbing (by decide)
      (by decide) _ [] [] 0 zeroPriv [] [] exampleRand).2 (key 1 0x1B)
      (by decide) (by decide) (by decide) (by decide)⟩

/-- Witness of C12: the helper exits with status 3 after the example
session; `Authenticate` returns 1 and plays no success tone. -/
theorem Authenticate_verdict_witness :
    failedPlumbing.pipeRequest = 0 ∧ failedPlumbing.pipeResponse = 0 ∧
    failedPlumbing.childpid ≠ -1 ∧ failedPlumbing.childpid ≠ 0 ∧ failedPlumbing.waitProc ≠ 0 ∧
    packetLoop authprotoTypes (returning scriptedPrompt) exampleOutcomes [] exampleInbound
      = .ended [(0x75, [0x6D, 0x65]), (0x78, [])] [(0x50, [0x3F])] [] ∧
    ∃ ret tone,
      Authenticate authprotoTypes (returning scriptedPrompt) failedPlumbing exampleOutcomes
          exampleInbound
        = .returned ret [(0x75, [0x6D, 0x65]), (0x78, [])] [(0x50, [0x3F])] true tone [] ∧
      (ret = 0 ↔ failedPlumbing.status = 0) ∧ (failedPlumbing.status ≠ 0 → ret = 1) ∧
      (tone = true ↔ failedPlumbing.status = 0) :=
  ⟨by decide, by decide, by decide, by decide, by decide, rfl,
    (Authenticate_verdict authprotoTypes (returning scriptedPrompt) failedPlumbing
      exampleOutcomes exampleInbound).1 _ _ _ (by decide) (by decide) (by decide) (by decide)
      (by decide) rfl⟩

/-! ## The descriptors of the child -/

theorem fdClose_only (t : FdTable) (fd x : Nat) (e : FdTarget)
    (h : t x = some e ∧ ∀ i, t i = some e → i = x) (hne : x ≠ fd) :
    fdClose t fd x = some e ∧ ∀ i, fdClose t fd i = some e → i = x := by
  refine ⟨by simp [fdClose, hne, h.1], fun i hi => ?_⟩
  unfold fdClose at hi
  split_ifs at hi
  exact h.2 i hi

/-- The pair `dup2(x, n); close(x)` moves what `x` refers to over to `n`. -/
theorem fdMove_target (t : FdTable) (x n : Nat) (e : FdTarget)
    (h : t x = some e ∧ ∀ i, t i = some e → i = x) (hne : x ≠ n) :
    fdClose (fdDup2 t x n) x n = some e ∧
      ∀ i, fdClose (fdDup2 t x n) x i = some e → i = n := by
  refine ⟨by simp [fdClose, fdDup2, Ne.symm hne, h.1], fun i hi => ?_⟩
  unfold fdClose fdDup2 at hi
  split_ifs at hi with h1 h2
  · exact h2
  · exact absurd (h.2 i hi) h1

/-- The pair `dup2(x, n); close(x)` leaves alone what a third descriptor `y`
refers to. -/
theorem fdMove_frame (t : FdTable) (x n y : Nat) (e : FdTarget)
    (h : t y = some e ∧ ∀ i, t i = some e → i = y) (hx : y ≠ x) (hn : y ≠ n) :
    fdClose (fdDup2 t x n) x y = some e ∧
      ∀ i, fdClose (fdDup2 t x n) x i = some e → i = y := by
  refine ⟨by simp [fdClose, fdDup2, hx, hn, h.1], fun i hi => ?_⟩
  unfold fdClose fdDup2 at hi
  split_ifs at hi with h1 h2
  · exact absurd (h.2 x hi).symm hx
  · exact h.2 i hi

/-- C13. Descriptor remapping: whatever descriptor numbers the four pipe ends
have in the child (each end under one number), and whatever free descriptor
`dup` returns, the juggling ends with descriptor 0 on the read end of the
response pipe, descriptor 1 on the write end of the request pipe, and no
other descriptor on either of them. -/
theorem childRemap_correct (t : FdTable)
    (requestfd0 requestfd1 responsefd0 responsefd1 dupResult : Nat)
    (h0 : t requestfd0 = some .requestRead) (h1 : t requestfd1 = some .requestWrite)
    (h2 : t responsefd0 = some .responseRead) (h3 : t responsefd1 = some .responseWrite)
    (hw : ∀ i, t i = some .requestWrite → i = requestfd1)
    (hr : ∀ i, t i = some .responseRead → i = responsefd0)
    (hdup : requestfd1 = 0 → childAfterCloses t requestfd0 responsefd1 dupResult = none) :
    (childRemap t requestfd0 requestfd1 responsefd0 responsefd1 dupResult 0
        = some .responseRead ∧
      ∀ i, childRemap t requestfd0 requestfd1 responsefd0 responsefd1 dupResult i
        = some .responseRead → i = 0) ∧
    (childRemap t requestfd0 requestfd1 responsefd0 responsefd1 dupResult 1
        = some .requestWrite ∧
      ∀ i, childRemap t requestfd0 requestfd1 responsefd0 responsefd1 dupResult i
        = some .requestWrite → i = 1) := by
  have e01 : requestfd1 ≠ requestfd0 := by intro h; rw [h, h0] at h1; cases h1
  have e02 : responsefd0 ≠ requestfd0 := by intro h; rw [h, h0] at h2; cases h2
  have e13 : requestfd1 ≠ responsefd1 := by intro h; rw [h, h3] at h1; cases h1
  have e23 : responsefd0 ≠ responsefd1 := by intro h; rw [h, h3] at h2; cases h2
  have e12 : requestfd1 ≠ responsefd0 := by intro h; rw [h, h2] at h1; cases h1
  -- after the two `close` calls
  have W1 := fdClose_only _ responsefd1 _ _ (fdClose_only t requestfd0 _ _ ⟨h1, hw⟩ e01) e13
  have R1 := fdClose_only _ responsefd1 _ _ (fdClose_only t requestfd0 _ _ ⟨h2, hr⟩ e02) e23
  unfold childRemap
  simp only
  by_cases ha : requestfd1 = 0
  · rw [if_pos ha]
    have hfree := hdup ha
    unfold childAfterCloses at hfree
    have hd0 : requestfd1 ≠ dupResult := by
      intro h; rw [← h, W1.1] at hfree; cases hfree
    have hd2 : responsefd0 ≠ dupResult := by
      intro h; rw [← h, R1.1] at hfree; cases hfree
    have W3 := fdMove_target _ requestfd1 dupResult _ W1 hd0
    have R3 := fdMove_frame _ requestfd1 dupResult responsefd0 _ R1 (Ne.symm e12) hd2
    have hb0 : responsefd0 ≠ 0 := by rw [← ha]; exact Ne.symm e12
    have hr0 : dupResult ≠ 0 := by rw [← ha]; exact Ne.symm hd0
    have R5 := fdMove_target _ responsefd0 0 _ R3 hb0
    have W5 := fdMove_frame _ responsefd0 0 dupResult _ W3 (Ne.symm hd2) hr0
    by_cases hr1 : dupResult = 1
    · subst hr1
      rw [if_neg (by decide)]
      exact ⟨R5, W5⟩
    · rw [if_pos hr1]
      exact ⟨fdMove_frame _ dupResult 1 0 _ R5 (Ne.symm hr0) (by decide),
        fdMove_target _ dupResult 1 _ W5 hr1⟩
  · rw [if_neg ha]
    by_cases ha1 : requestfd1 = 1
    · rw [if_neg (by simpa using ha1)]
      by_cases hb : responsefd0 = 0
      · rw [if_neg (by simpa using hb)]
        rw [hb] at R1
        rw [ha1] at W1
        exact ⟨R1, W1⟩
      · rw [if_pos hb]
        have R2 := fdMove_target _ responsefd0 0 _ R1 hb
        have W2 := fdMove_frame _ responsefd0 0 requestfd1 _ W1 e12 ha
        rw [ha1] at W2
        exact ⟨R2, W2⟩
    · rw [if_pos ha1]
      by_cases hb : responsefd0 = 0
      · rw [if_neg (by simpa using hb)]
        rw [hb] at R1
        exact ⟨fdMove_frame _ requestfd1 1 0 _ R1 (Ne.symm ha) (by decide),
          fdMove_target _ requestfd1 1 _ W1 ha1⟩
      · rw [if_pos hb]
        have R2 := fdMove_target _ responsefd0 0 _ R1 hb
        have W2 := fdMove_frame _ responsefd0 0 requestfd1 _ W1 e12 ha
        exact ⟨fdMove_frame _ requestfd1 1 0 _ R2 (Ne.symm ha) (by decide),
          fdMove_target _ requestfd1 1 _ W2 ha1⟩

/-- Witness of C13: `requestfd[1] = 0` and `responsefd[0] = 1` at once; `dup`
returns 2, the lowest free descriptor after the two `close` calls. -/
theorem childRemap_correct_witness :
    crossedTable 2 = some .requestRead ∧ crossedTable 0 = some .requestWrite ∧
    crossedTable 1 = some .responseRead ∧ crossedTable 3 = some .responseWrite ∧
    childAfterCloses crossedTable 2 3 2 = none ∧
    ((childRemap crossedTable 2 0 1 3 2 0 = some .responseRead ∧
      ∀ i, childRemap crossedTable 2 0 1 3 2 i = some .responseRead → i = 0) ∧
     (childRemap crossedTable 2 0 1 3 2 1 = some .requestWrite ∧
      ∀ i, childRemap crossedTable 2 0 1 3 2 i = some .requestWrite → i = 1)) :=
  ⟨by decide, by decide, by decide, by decide, by decide,
    childRemap_correct crossedTable 2 0 1 3 2 (by decide) (by decide) (by decide) (by decide)
      (fun i hi => by
        match i, hi with
        | 0, _ => rfl
        | 1, hi => exact absurd hi (by decide)
        | 2, hi => exact absurd hi (by decide)
        | 3, hi => exact absurd hi (by decide)
        | n + 4, hi => exact absurd hi (by simp [crossedTable]))
      (fun i hi => by
        match i, hi with
        | 0, hi => exact absurd hi (by decide)
        | 1, _ => rfl
        | 2, hi => exact absurd hi (by decide)
        | 3, hi => exact absurd hi (by decide)
        | n + 4, hi => exact absurd hi (by simp [crossedTable]))
      (fun _ => by decide)⟩

/-! ## Control bytes and the marker -/

theorem render_inputbuf (G : Settings) (mblen : List Nat → Int) (echo blink : Bool) (priv : Priv)
    (c : Nat) :
    render G mblen echo blink { priv with inputbuf := c }
      = { render G mblen echo blink priv with inputbuf := c } := by
  unfold render
  split_ifs <;> rfl

/-- C14. Ignored control bytes: a byte in 0..31 other than 0, 1, 8, 10, 13,
19, 21 and 27 that is read in time does not end the prompt and changes
nothing of `priv` but `inputbuf`: `pwbuf`, `pwlen`, the marker and the display
buffer stay as they were, no `rand()` output is drawn, and the next rendering
is what it would have been without the byte. -/
theorem ignored_control_byte (G : Settings) (mblen : List Nat → Int) (echo : Bool) (s : St)
    (w : Wakeup) (hn : 0 < w.nfds) (ht : w.now ≤ s.deadline) (hr : 0 < w.nread)
    (hc : w.byte % 256 ≤ 31)
    (hx : w.byte % 256 ≠ 0 ∧ w.byte % 256 ≠ 1 ∧ w.byte % 256 ≠ 8 ∧ w.byte % 256 ≠ 10 ∧
      w.byte % 256 ≠ 13 ∧ w.byte % 256 ≠ 19 ∧ w.byte % 256 ≠ 21 ∧ w.byte % 256 ≠ 27) :
    ∃ s', wake G mblen echo s w = .cont s' ∧
      s'.priv = { s.priv with inputbuf := w.byte % 256 } ∧
      s'.priv.pwbuf = s.priv.pwbuf ∧ s'.priv.pwlen = s.priv.pwlen ∧
      s'.priv.displaymarker = s.priv.displaymarker ∧
      s'.priv.displaybuf = s.priv.displaybuf ∧ s'.priv.displaylen = s.priv.displaylen ∧
      s'.rand = s.rand ∧
      ∀ b, (render G mblen echo b s'.priv).displaybuf = (render G mblen echo b s.priv).displaybuf ∧
        (render G mblen echo b s'.priv).displaylen = (render G mblen echo b s.priv).displaylen := by
  obtain ⟨x0, x1, x8, x10, x13, x19, x21, x27⟩ := hx
  have hw : wake G mblen echo s w
      = .cont { priv := { s.priv with inputbuf := w.byte % 256 }, blink_state := false,
                deadline := w.now + G.prompt_timeout, rand := s.rand } := by
    unfold wake
    simp only
    rw [if_neg (by omega), if_neg (by omega), if_neg (by omega), if_neg (by omega)]
    unfold handleKey
    simp only
    rw [if_neg (by omega), if_neg (by omega), if_neg (by omega), if_neg (by omega),
      if_neg (by omega), if_neg (by omega), if_pos hc]
    split_ifs <;> rfl
  refine ⟨_, hw, rfl, rfl, rfl, rfl, rfl, rfl, rfl, fun b => ?_⟩
  simp [render_inputbuf]

/-- Witness of C14: Ctrl-B (byte 2) typed into a buffer holding `"aé"`. -/
theorem ignored_control_byte_witness :
    0 < (key 1 0x02).nfds ∧ (key 1 0x02).now ≤ twoCharState.deadline ∧
    0 < (key 1 0x02).nread ∧ (key 1 0x02).byte % 256 ≤ 31 ∧
    ((key 1 0x02).byte % 256 ≠ 0 ∧ (key 1 0x02).byte % 256 ≠ 1 ∧
      (key 1 0x02).byte % 256 ≠ 8 ∧ (key 1 0x02).byte % 256 ≠ 10 ∧
      (key 1 0x02).byte % 256 ≠ 13 ∧ (key 1 0x02).byte % 256 ≠ 19 ∧
      (key 1 0x02).byte % 256 ≠ 21 ∧ (key 1 0x02).byte % 256 ≠ 27) ∧
    ∃ s', wake exampleSettings mblenUtf8 false twoCharState (key 1 0x02) = .cont s' ∧
      s'.priv = { twoCharState.priv with inputbuf := (key 1 0x02).byte % 256 } ∧
      s'.priv.pwbuf = twoCharState.priv.pwbuf ∧ s'.priv.pwlen = twoCharState.priv.pwlen ∧
      s'.priv.displaymarker = twoCharState.priv.displaymarker ∧
      s'.priv.displaybuf = twoCharState.priv.displaybuf ∧
      s'.priv.displaylen = twoCharState.priv.displaylen ∧
      s'.rand = twoCharState.rand ∧
      ∀ b, (render exampleSettings mblenUtf8 false b s'.priv).displaybuf
          = (render exampleSettings mblenUtf8 false b twoCharState.priv).displaybuf ∧
        (render exampleSettings mblenUtf8 false b s'.priv).displaylen
          = (render exampleSettings mblenUtf8 false b twoCharState.priv).displaylen :=
  ⟨by decide, by decide, by decide, by decide, by decide,
    ignored_control_byte exampleSettings mblenUtf8 false twoCharState (key 1 0x02)
      (by decide) (by decide) (by decide) (by decide) (by decide)⟩

/-- What a Backspace/Delete byte read in time does, in terms of the
`prevpos` the backward skip ends with. -/
theorem wake_backspace (G : Settings) (mblen : List Nat → Int) (echo : Bool) (s : St)
    (w : Wakeup) (hn : 0 < w.nfds) (ht : w.now ≤ s.deadline) (hr : 0 < w.nread) :
    wake G mblen echo s w =
      handleKey mblen { priv := { s.priv with inputbuf := w.byte % 256 }, blink_state := false,
                        deadline := w.now + G.prompt_timeout, rand := s.rand } := by
  unfold wake
  simp only
  rw [if_neg (by omega), if_neg (by omega), if_neg (by omega), if_neg (by omega)]
  split_ifs <;> rfl

/-- C15. Backspace marker rule, for a Backspace/Delete byte read in time.
The prompt goes on unless the `rand()` outputs run out in the rejection loop.
On an empty buffer `pwlen` stays 0 and the marker and the `rand()` stream are
untouched.  In general: if no byte was removed the marker and the stream are
unchanged; if the buffer became empty the marker is 0 and the stream is
unchanged; otherwise the new marker and stream are what
`BumpDisplayMarker(old marker)` returns. -/
theorem backspace_marker_rule (G : Settings) (mblen : List Nat → Int) (echo : Bool) (s : St)
    (w : Wakeup) (hn : 0 < w.nfds) (ht : w.now ≤ s.deadline) (hr : 0 < w.nread)
    (hk : w.byte % 256 = 0x08 ∨ w.byte % 256 = 0x7F) :
    ((∃ s', wake G mblen echo s w = .cont s') ∨
      (wake G mblen echo s w = .starved ∧
        BumpDisplayMarker (s.priv.displaymarker : Int) s.rand = none)) ∧
    (s.priv.pwlen = 0 →
      ∃ s', wake G mblen echo s w = .cont s' ∧ s'.priv.pwlen = 0 ∧
        s'.priv.displaymarker = s.priv.displaymarker ∧ s'.rand = s.rand) ∧
    (∀ s', wake G mblen echo s w = .cont s' →
      s'.priv.pwlen ≤ s.priv.pwlen ∧
      (s'.priv.pwlen = s.priv.pwlen →
        s'.priv.displaymarker = s.priv.displaymarker ∧ s'.rand = s.rand) ∧
      (s'.priv.pwlen < s.priv.pwlen → s'.priv.pwlen = 0 →
        s'.priv.displaymarker = 0 ∧ s'.rand = s.rand) ∧
      (s'.priv.pwlen < s.priv.pwlen → s'.priv.pwlen ≠ 0 →
        BumpDisplayMarker (s.priv.displaymarker : Int) s.rand
          = some ((s'.priv.displaymarker : Int), s'.rand))) := by
  rw [wake_backspace G mblen echo s w hn ht hr]
  have hle := backwardSkip_prevpos_le mblen s.priv.pwbuf s.priv.pwlen s.priv.pwlen 0 0
    s.priv.len (Nat.zero_le _)
  unfold handleKey
  simp only
  rw [if_pos hk]
  generalize backwardSkip mblen s.priv.pwbuf s.priv.pwlen s.priv.pwlen 0 0 s.priv.len = r at hle ⊢
  by_cases h1 : r.2.1 = s.priv.pwlen
  · rw [if_neg (by simpa using h1)]
    refine ⟨Or.inl ⟨_, rfl⟩, fun h0 => ⟨_, rfl, by show r.2.1 = 0; omega, rfl, rfl⟩, ?_⟩
    intro s' hs'
    simp only [Step.cont.injEq] at hs'
    subst hs'
    exact ⟨by show r.2.1 ≤ _; omega, fun _ => ⟨rfl, rfl⟩,
      fun h => absurd h (by show ¬ r.2.1 < _; omega),
      fun h => absurd h (by show ¬ r.2.1 < _; omega)⟩
  · rw [if_pos h1]
    by_cases h2 : r.2.1 = 0
    · rw [if_pos h2]
      refine ⟨Or.inl ⟨_, rfl⟩, fun h => by omega, ?_⟩
      intro s' hs'
      simp only [Step.cont.injEq] at hs'
      subst hs'
      exact ⟨hle, fun h => absurd h h1, fun _ _ => ⟨rfl, rfl⟩, fun _ h => absurd h2 h⟩
    · rw [if_neg h2]
      simp only [bumpMarker]
      cases hb : BumpDisplayMarker (s.priv.displaymarker : Int) s.rand with
      | none =>
        exact ⟨Or.inr ⟨rfl, rfl⟩, fun h => by omega, fun s' hs' => by simp at hs'⟩
      | some pr =>
        obtain ⟨p, rs⟩ := pr
        have hp := BumpDisplayMarker_spec _ _ _ _ hb
        refine ⟨Or.inl ⟨_, rfl⟩, fun h => by omega, ?_⟩
        intro s' hs'
        simp only [Step.cont.injEq] at hs'
        subst hs'
        refine ⟨hle, fun h => absurd h h1, fun _ h => absurd h h2, fun _ _ => ?_⟩
        show some (p, rs) = some (((p.toNat : Nat) : Int), rs)
        rw [Int.toNat_of_nonneg (by omega)]

/-- Witness of C15: Backspace on `"aé"` leaves `"a"`; the marker moves from
7 to 1, the result of `BumpDisplayMarker(7)` on the `rand()` output 0. -/
theorem backspace_marker_rule_witness :
    0 < (key 1 0x08).nfds ∧ (key 1 0x08).now ≤ twoCharState.deadline ∧
    0 < (key 1 0x08).nread ∧
    ((key 1 0x08).byte % 256 = 0x08 ∨ (key 1 0x08).byte % 256 = 0x7F) ∧
    ∃ s', wake exampleSettings mblenUtf8 false twoCharState (key 1 0x08) = .cont s' ∧
      s'.priv.pwlen = 1 ∧ s'.priv.displaymarker = 1 ∧ s'.rand = [] ∧
      (s'.priv.pwlen < twoCharState.priv.pwlen → s'.priv.pwlen ≠ 0 →
        BumpDisplayMarker (twoCharState.priv.displaymarker : Int) twoCharState.rand
          = some ((s'.priv.displaymarker : Int), s'.rand)) :=
  ⟨by decide, by decide, by decide, by decide, _, rfl, rfl, rfl, rfl,
    ((backspace_marker_rule exampleSettings mblenUtf8 false twoCharState (key 1 0x08)
      (by decide) (by decide) (by decide) (by decide)).2.2 _ rfl).2.2.2⟩

/-! ## The display strings -/

theorem bytes_getElem (buf : Nat → Nat) (off n i : Nat) (h : i < (bytes buf off n).length) :
    (bytes buf off n)[i] = buf (off + i) := by
  simp [bytes]

theorem cstr_append_zero (l rest : List Nat) (h : ∀ b ∈ l, b ≠ 0) :
    cstr (l ++ 0 :: rest) = l := by
  unfold cstr
  induction l with
  | nil => simp
  | cons b l ih =>
    have hb : b ≠ 0 := h b (List.mem_cons_self _ _)
    simp only [List.cons_append, List.takeWhile_cons, bne_iff_ne, ne_eq, hb, not_false_eq_true,
      decide_True, ite_true]
    rw [ih (fun c hc => h c (List.mem_cons_of_mem _ hc))]

/-- The C string in a buffer whose first NUL is at index `n`, inside the
first `N` bytes. -/
theorem cstr_bytes_window (buf : Nat → Nat) (n N : Nat) (h : ∀ i, i < n → buf i ≠ 0)
    (h0 : buf n = 0) (hN : n < N) : cstr (bytes buf 0 N) = bytes buf 0 n := by
  have hsplit : N = n + (1 + (N - n - 1)) := by omega
  rw [hsplit, bytes_add, bytes_add]
  have h1 : bytes buf (0 + n) 1 = [0] := by simp [bytes, List.range_succ, h0]
  rw [h1]
  apply cstr_append_zero
  intro b hb
  simp only [bytes, List.mem_map, List.mem_range] at hb
  obtain ⟨i, hi, hbi⟩ := hb
  rw [← hbi, Nat.zero_add]
  exact h i hi

/-- C16. Paranoid rendering: for every marker `m` in 0..31, every blink phase
and every buffer, the string displayed in paranoid mode is 32 bytes long: the
filler `'_'` everywhere except at index `m`, where it has `'|'` when the blink
flag is set and `'-'` when it is clear.  The buffer and its length do not
enter. -/
theorem render_paranoid (G : Settings) (mblen : List Nat → Int) (blink : Bool) (p : Priv)
    (hh : G.hide_password_completely = false) (hd : G.disco = false)
    (hp : G.paranoid_password = true) (_hm : p.displaymarker < PARANOID_PASSWORD_LENGTH) :
    displayString (render G mblen false blink p)
      = (List.replicate 32 0x5F).set p.displaymarker (if blink then 0x7C else 0x2D) ∧
    (displayString (render G mblen false blink p)).length = 32 ∧
    (render G mblen false blink p).displaylen = 32 := by
  have hr : render G mblen false blink p
      = { p with displaybuf := store (store (memset p.displaybuf 0x5F 32) p.displaymarker
                    (if blink then 0x7C else 0x2D)) 32 0, displaylen := 32 } := by
    unfold render
    simp only [Bool.false_eq_true, if_false, hh, hd, hp, if_true, PARANOID_PASSWORD_LENGTH_eq]
  have hs : displayString (render G mblen false blink p)
      = (List.replicate 32 0x5F).set p.displaymarker (if blink then 0x7C else 0x2D) := by
    rw [hr]
    unfold displayString
    simp only
    rw [cstr_bytes_window _ 32 DISPLAYBUF_SIZE ?_ (by simp [store]) (by decide)]
    · apply List.ext_getElem
      · simp [bytes_length]
      · intro i h1 h2
        rw [bytes_getElem, List.getElem_set]
        have hi : i < 32 := by simpa [bytes_length] using h1
        simp only [store, memset, Nat.zero_add, List.getElem_replicate]
        rw [if_neg (by omega)]
        by_cases hmi : p.displaymarker = i
        · rw [if_pos hmi, if_pos hmi.symm]
        · rw [if_neg hmi, if_neg (Ne.symm hmi), if_pos hi]
    · intro i hi
      simp only [store, memset]
      split_ifs <;> omega
  refine ⟨hs, ?_, by rw [hr]⟩
  rw [hs]
  simp

/-- Witness of C16: marker 7, blink flag set, buffer `"hunter2"`. -/
theorem render_paranoid_witness :
    exampleSettings.hide_password_completely = false ∧ exampleSettings.disco = false ∧
    exampleSettings.paranoid_password = true ∧
    longerPriv.displaymarker < PARANOID_PASSWORD_LENGTH ∧
    (displayString (render exampleSettings mblenUtf8 false true longerPriv)
        = (List.replicate 32 0x5F).set longerPriv.displaymarker (if true then 0x7C else 0x2D) ∧
      (displayString (render exampleSettings mblenUtf8 false true longerPriv)).length = 32 ∧
      (render exampleSettings mblenUtf8 false true longerPriv).displaylen = 32) :=
  ⟨by decide, by decide, by decide, by decide,
    render_paranoid exampleSettings mblenUtf8 true longerPriv (by decide) (by decide)
      (by decide) (by decide)⟩

theorem countChars_exit (mblen : List Nat → Int) (pwbuf : Nat → Nat) (pwlen : Nat)
    (fuel pos displaylen : Nat) (len : Int) (h : ¬ pos < pwlen) :
    countChars mblen pwbuf pwlen fuel pos displaylen len = (pos, displaylen, len) := by
  cases fuel with
  | zero => rfl
  | succ fuel => simp only [countChars]; rw [if_neg h]

/-- On a buffer cut into characters by `mblen`, the count ends with one
`displaylen` step per character. -/
theorem countChars_delimited (mblen : List Nat → Int) (pwbuf : Nat → Nat) (pwlen : Nat) :
    ∀ (cs : List (List Nat)) (fuel pos displaylen : Nat) (len : Int),
      Delimits mblen cs → pos ≤ pwlen →
      bytes pwbuf pos (pwlen - pos) = cs.flatten → pwlen - pos ≤ fuel →
      (countChars mblen pwbuf pwlen fuel pos displaylen len).2.1 = displaylen + cs.length := by
  intro cs
  induction cs with
  | nil =>
    intro fuel pos displaylen len _ hpos hb _
    have hl : pwlen - pos = 0 := by
      have := congrArg List.length hb
      simpa [bytes_length] using this
    rw [countChars_exit _ _ _ _ _ _ _ (by omega)]
    simp
  | cons c0 cs ih =>
    intro fuel pos displaylen len hd hpos hb hfuel
    simp only [Delimits, List.flatten_cons] at hd hb
    obtain ⟨hc, hm, hd'⟩ := hd
    have hl : pwlen - pos = c0.length + cs.flatten.length := by
      have := congrArg List.length hb
      simpa [bytes_length] using this
    cases fuel with
    | zero => omega
    | succ fuel =>
      simp only [countChars]
      rw [if_pos (by omega), hb, hm, if_neg (by omega)]
      have hb' := bytes_split pwbuf pos (pwlen - pos) c0 _ hb
      have hsub : pwlen - pos - c0.length = pwlen - (pos + c0.length) := by omega
      rw [hsub] at hb'
      simp only [Int.toNat_ofNat]
      rw [ih fuel (pos + c0.length) (displaylen + 1) _ hd' (by omega) hb' (by omega)]
      simp only [List.length_cons]
      omega

theorem Delimits_length_le (mblen : List Nat → Int) (cs : List (List Nat))
    (hd : Delimits mblen cs) : cs.length ≤ cs.flatten.length := by
  induction cs with
  | nil => simp
  | cons c cs ih =>
    simp only [Delimits] at hd
    have := ih hd.2.2
    simp only [List.length_cons, List.flatten_cons, List.length_append]
    omega

/-- C17. Masked rendering: in masked mode, when the buffer is the
concatenation of the complete characters `cs` (as `mblen` delimits them), the
string displayed is one `'*'` per character followed by the cursor byte, `'_'`
when the blink flag is clear and `' '` when it is set. -/
theorem render_masked (G : Settings) (mblen : List Nat → Int) (blink : Bool) (p : Priv)
    (cs : List (List Nat))
    (hh : G.hide_password_completely = false) (hd : G.disco = false)
    (hp : G.paranoid_password = false)
    (hbuf : bytes p.pwbuf 0 p.pwlen = cs.flatten) (hdel : Delimits mblen cs)
    (hlen : p.pwlen ≤ PWBUF_SIZE) :
    displayString (render G mblen false blink p)
      = List.replicate cs.length 0x2A ++ [if blink then 0x20 else 0x5F] ∧
    (render G mblen false blink p).displaylen = cs.length := by
  have hN : cs.length ≤ 256 := by
    have h1 := Delimits_length_le mblen cs hdel
    have h2 := congrArg List.length hbuf
    simp only [bytes_length] at h2
    unfold PWBUF_SIZE at hlen
    omega
  have hcount : (countChars mblen p.pwbuf p.pwlen p.pwlen 0 0 p.len).2.1 = cs.length := by
    rw [countChars_delimited mblen p.pwbuf p.pwlen cs p.pwlen 0 0 p.len hdel (Nat.zero_le _)
      (by simpa using hbuf) (by omega)]
    omega
  have hbuf' : (render G mblen false blink p).displaybuf
      = store (store (memset p.displaybuf 0x2A cs.length) cs.length
          (if blink then 0x20 else 0x5F)) (cs.length + 1) 0 := by
    unfold render
    simp only [Bool.false_eq_true, if_false, hh, hd, hp, hcount, cursor, List.getD_cons_zero]
  have hlen' : (render G mblen false blink p).displaylen = cs.length := by
    unfold render
    simp only [Bool.false_eq_true, if_false, hh, hd, hp, hcount]
  refine ⟨?_, hlen'⟩
  unfold displayString
  rw [hbuf', cstr_bytes_window _ (cs.length + 1) DISPLAYBUF_SIZE ?_ (by simp [store])
    (by unfold DISPLAYBUF_SIZE PWBUF_SIZE; omega)]
  · apply List.ext_getElem
    · simp [bytes_length]
    · intro i h1 h2
      rw [bytes_getElem]
      have hi : i < cs.length + 1 := by simpa [bytes_length] using h1
      simp only [store, memset, Nat.zero_add]
      rw [if_neg (by omega)]
      by_cases hic : i = cs.length
      · rw [if_pos hic]
        subst hic
        simp
      · rw [if_neg hic, if_pos (by omega), List.getElem_append_left (by simp; omega)]
        simp
  · intro i hi
    simp only [store, memset]
    split_ifs <;> omega

/-- Witness of C17: the buffer `"aé"` (two characters, three bytes) is shown
as two stars and the cursor. -/
theorem render_masked_witness :
    maskedSettings.hide_password_completely = false ∧ maskedSettings.disco = false ∧
    maskedSettings.paranoid_password = false ∧
    bytes twoCharState.priv.pwbuf 0 twoCharState.priv.pwlen = [[0x61], [0xC3, 0xA9]].flatten ∧
    Delimits mblenUtf8 [[0x61], [0xC3, 0xA9]] ∧ twoCharState.priv.pwlen ≤ PWBUF_SIZE ∧
    (displayString (render maskedSettings mblenUtf8 false false twoCharState.priv)
        = List.replicate [[0x61], [0xC3, 0xA9]].length 0x2A ++ [if false then 0x20 else 0x5F] ∧
      (render maskedSettings mblenUtf8 false false twoCharState.priv).displaylen
        = [[0x61], [0xC3, 0xA9]].length) :=
  ⟨by decide, by decide, by decide, by decide, by decide, by decide,
    render_masked maskedSettings mblenUtf8 false twoCharState.priv [[0x61], [0xC3, 0xA9]]
      (by decide) (by decide) (by decide) (by decide) (by decide) (by decide)⟩

theorem bytes_memcpy (dst : Nat → Nat) (off : Nat) (src : List Nat) :
    bytes (memcpy dst off src src.length) 0 (off + src.length) = bytes dst 0 off ++ src := by
  rw [bytes_add]
  congr 1
  · unfold bytes
    apply List.map_congr_left
    intro i hi
    have : i < off := List.mem_range.mp hi
    simp only [memcpy, Nat.zero_add]
    rw [if_neg (by omega)]
  · apply List.ext_getElem
    · simp [bytes_length]
    · intro i h1 h2
      rw [bytes_getElem]
      simp only [memcpy, Nat.zero_add]
      rw [if_pos (by omega)]
      simp [h2]

theorem bytes_memcpy_len (dst : Nat → Nat) (off : Nat) (src : List Nat) (n : Nat)
    (h : src.length = n) :
    bytes (memcpy dst off src n) 0 (off + n) = bytes dst 0 off ++ src := by
  subst h
  exact bytes_memcpy dst off src

theorem bytes_memcpy_below (dst : Nat → Nat) (off : Nat) (src : List Nat) (n k : Nat)
    (hk : k ≤ off) : bytes (memcpy dst off src n) 0 k = bytes dst 0 k := by
  unfold bytes
  apply List.map_congr_left
  intro i hi
  have : i < k := List.mem_range.mp hi
  simp only [memcpy, Nat.zero_add]
  rw [if_neg (by omega)]

theorem bytes_store_below (buf : Nat → Nat) (i v k : Nat) (hk : k ≤ i) :
    bytes (store buf i v) 0 k = bytes buf 0 k := by
  unfold bytes
  apply List.map_congr_left
  intro j hj
  have : j < k := List.mem_range.mp hj
  simp only [store, Nat.zero_add]
  rw [if_neg (by omega)]

theorem marker_bit (m i : Nat) : (m &&& 1 <<< i ≠ 0) ↔ m.testBit i = true := by
  rw [Nat.one_shiftLeft, Nat.and_two_pow]
  cases h : m.testBit i <;> simp

theorem dancer_length (c : Prop) [Decidable c] :
    (disco_dancers.getD (if c then 1 else 0) []).length = 15 := by
  split_ifs <;> rfl

/-- One round of the disco loop appends the combiner and the dancer of its
bit to what the rounds before it wrote. -/
theorem discoRound_bytes (m : Nat) (buf : Nat → Nat) (i : Nat) :
    bytes (discoRound m buf i) 0 (20 * (i + 1))
      = bytes buf 0 (20 * i)
        ++ (disco_combiner ++ disco_dancers.getD (if m.testBit i then 1 else 0) []) := by
  have hc : disco_combiner.length = 5 := rfl
  have hd : (disco_dancers.getD 0 []).length = 15 := rfl
  have hsel : disco_dancers.getD (if m &&& 1 <<< i ≠ 0 then 1 else 0) []
      = disco_dancers.getD (if m.testBit i then 1 else 0) [] := by
    by_cases hb : m.testBit i = true
    · rw [if_pos ((marker_bit m i).mpr hb), if_pos hb]
    · rw [if_neg (fun h => hb ((marker_bit m i).mp h)), if_neg hb]
  unfold discoRound
  simp only [hc, hd, hsel]
  have h15 := dancer_length (m.testBit i = true)
  have e1 : 20 * (i + 1) = 20 * i + 5 + 15 := by omega
  have e3 : i * (5 + 15) = 20 * i := by omega
  rw [e1, e3, bytes_memcpy_len _ _ _ 15 h15, bytes_memcpy_len _ _ _ 5 hc, List.append_assoc]

theorem disco_fold_bytes (m : Nat) (buf : Nat → Nat) (k : Nat) :
    bytes ((List.range k).foldl (discoRound m) buf) 0 (20 * k)
      = ((List.range k).map (fun i =>
          disco_combiner ++ disco_dancers.getD (if m.testBit i then 1 else 0) [])).flatten := by
  induction k with
  | zero => simp [bytes]
  | succ k ih =>
    rw [List.range_succ, List.foldl_append, List.map_append, List.flatten_append]
    simp only [List.foldl_cons, List.foldl_nil, List.map_cons, List.map_nil, List.flatten_cons,
      List.flatten_nil, List.append_nil]
    rw [discoRound_bytes, ih]

theorem discoRound_above (m : Nat) (buf : Nat → Nat) (i j : Nat) (h : 20 * (i + 1) ≤ j) :
    discoRound m buf i j = buf j := by
  have hc : disco_combiner.length = 5 := rfl
  have hd : (disco_dancers.getD 0 []).length = 15 := rfl
  unfold discoRound
  simp only [hc, hd, memcpy]
  rw [if_neg (by omega), if_neg (by omega)]

theorem disco_fold_above (m : Nat) (buf : Nat → Nat) (k j : Nat) (h : 20 * k ≤ j) :
    (List.range k).foldl (discoRound m) buf j = buf j := by
  induction k with
  | zero => rfl
  | succ k ih =>
    rw [List.range_succ, List.foldl_append]
    simp only [List.foldl_cons, List.foldl_nil]
    rw [discoRound_above m _ k j (by omega), ih (by omega)]

/-- The display buffer after the disco branch of `render`. -/
theorem render_disco_buf (G : Settings) (mblen : List Nat → Int) (blink : Bool) (p : Priv)
    (hh : G.hide_password_completely = false) (hd : G.disco = true) :
    (render G mblen false blink p).displaybuf
      = store (memcpy ((List.range 5).foldl (discoRound p.displaymarker) p.displaybuf) 100
          disco_combiner 5) 1505 0 ∧
    (render G mblen false blink p).displaylen = 1505 := by
  unfold render
  simp only [Bool.false_eq_true, if_false, hh, hd, if_true]
  exact ⟨rfl, rfl⟩

/-- C18. Disco rendering: the disco branch writes, from index 0 on, combiner,
dancer(bit 0), combiner, dancer(bit 1), ..., combiner, dancer(bit 4),
combiner (105 bytes), and beyond them only the NUL at index `displaylen`.
The bytes written and `displaylen` depend on the marker only: not on the
buffer, not on `pwlen`, not on the blink phase; with the same display memory
before, the display memory after is the same. -/
theorem render_disco (G : Settings) (mblen : List Nat → Int) (blink : Bool) (p : Priv)
    (hh : G.hide_password_completely = false) (hd : G.disco = true) :
    bytes (render G mblen false blink p).displaybuf 0 105 = discoContent p.displaymarker ∧
    (discoContent p.displaymarker).length = 105 ∧
    (∀ i, 105 ≤ i → (render G mblen false blink p).displaybuf i
      = if i = (render G mblen false blink p).displaylen then 0 else p.displaybuf i) ∧
    (∀ (blink' : Bool) (q : Priv), q.displaymarker = p.displaymarker →
      bytes (render G mblen false blink' q).displaybuf 0 105
        = bytes (render G mblen false blink p).displaybuf 0 105 ∧
      (render G mblen false blink' q).displaylen = (render G mblen false blink p).displaylen ∧
      (q.displaybuf = p.displaybuf →
        (render G mblen false blink' q).displaybuf
          = (render G mblen false blink p).displaybuf)) := by
  have hbytes : ∀ (b : Bool) (x : Priv),
      bytes (render G mblen false b x).displaybuf 0 105 = discoContent x.displaymarker := by
    intro b x
    rw [(render_disco_buf G mblen b x hh hd).1, bytes_store_below _ _ _ _ (by omega)]
    have h := bytes_memcpy_len ((List.range 5).foldl (discoRound x.displaymarker) x.displaybuf)
      100 disco_combiner 5 rfl
    have e : (105 : Nat) = 100 + 5 := rfl
    rw [e, h]
    have hf := disco_fold_bytes x.displaymarker x.displaybuf 5
    have e2 : (20 : Nat) * 5 = 100 := rfl
    rw [e2] at hf
    rw [hf]
    rfl
  refine ⟨hbytes blink p, ?_, ?_, ?_⟩
  · rw [← hbytes blink p, bytes_length]
  · intro i hi
    rw [(render_disco_buf G mblen blink p hh hd).1, (render_disco_buf G mblen blink p hh hd).2]
    simp only [store, memcpy]
    by_cases h1 : i = 1505
    · rw [if_pos h1, if_pos h1]
    · rw [if_neg h1, if_neg h1, if_neg (by omega), disco_fold_above _ _ 5 i (by omega)]
  · intro blink' q hq
    refine ⟨by rw [hbytes, hbytes, hq], ?_, ?_⟩
    · rw [(render_disco_buf G mblen blink' q hh hd).2, (render_disco_buf G mblen blink p hh hd).2]
    · intro hb
      rw [(render_disco_buf G mblen blink' q hh hd).1, (render_disco_buf G mblen blink p hh hd).1,
        hq, hb]

/-- Witness of C18: marker 7 (bits 0, 1 and 2 set), buffers `"a"` and
`"hunter2"`. -/
theorem render_disco_witness :
    discoSettings.hide_password_completely = false ∧ discoSettings.disco = true ∧
    bytes (render discoSettings mblenUtf8 false false shortPriv).displaybuf 0 105
      = discoContent shortPriv.displaymarker ∧
    longerPriv.displaymarker = shortPriv.displaymarker ∧
    bytes (render discoSettings mblenUtf8 false true longerPriv).displaybuf 0 105
      = bytes (render discoSettings mblenUtf8 false false shortPriv).displaybuf 0 105 :=
  ⟨by decide, by decide,
    (render_disco discoSettings mblenUtf8 false shortPriv (by decide) (by decide)).1,
    by decide,
    ((render_disco discoSettings mblenUtf8 false shortPriv (by decide) (by decide)).2.2.2
      true longerPriv (by decide)).1⟩

/-- C19 (the code at the failing input). In disco mode `displaylen` is
`stride * DISCO_PASSWORD_DANCERS * dancer_length + combiner_length = 1505`, not
the 105 bytes `DISCO_PASSWORD_DANCERS * stride + combiner_length` that the loop
and the trailing combiner write; the terminating NUL is stored at index 1505,
past the end of `displaybuf` (`DISPLAYBUF_SIZE = 258`). -/
theorem render_disco_displaylen :
    (render discoSettings mblenUtf8 false false shortPriv).displaylen = 1505 ∧
    DISCO_PASSWORD_DANCERS * (disco_combiner.length + (disco_dancers.getD 0 []).length)
      + disco_combiner.length = 105 ∧
    DISPLAYBUF_SIZE = 258 ∧
    (render discoSettings mblenUtf8 false false shortPriv).displaybuf 1505 = 0 ∧
    (render discoSettings mblenUtf8 false false shortPriv).displaybuf 105
      = shortPriv.displaybuf 105 := by
  refine ⟨rfl, rfl, rfl, rfl, rfl⟩

/-! ## The timeout -/

theorem wake_cont_deadline (G : Settings) (mblen : List Nat → Int) (echo : Bool) (s s' : St)
    (w : Wakeup) (h : wake G mblen echo s w = .cont s') :
    0 ≤ w.nfds ∧ w.now ≤ s.deadline ∧
    s'.deadline = if w.nfds = 0 then min s.deadline (w.now + G.prompt_timeout)
      else w.now + G.prompt_timeout := by
  unfold wake at h
  simp only at h
  split_ifs at h with h1 h2 h3 h4 h5 h6
  all_goals first
    | (simp only [Step.cont.injEq] at h
       subst h
       simp only [redraw]
       refine ⟨by omega, by omega, ?_⟩
       rw [if_pos (by assumption)]
       first
         | (rw [min_eq_right (by omega)])
         | (rw [min_eq_left (by omega)]))
    | (have hk := handleKey_deadline mblen _ _ h
       simp only at hk
       refine ⟨by omega, by omega, ?_⟩
       rw [if_neg (by assumption)]
       exact hk)

theorem promptLoop_deadline (G : Settings) (mblen : List Nat → Int) (echo : Bool)
    (events : List Wakeup) :
    ∀ (s s' : St) (tl tp : Int), s.deadline = tl + G.prompt_timeout → tl ≤ tp →
      nonDecreasing tp events → promptLoop G mblen echo s events = .collecting s' →
      s'.deadline = lastInput tl events + G.prompt_timeout := by
  induction events with
  | nil =>
    intro s s' tl tp hd _ _ h
    simp only [promptLoop, Outcome.collecting.injEq] at h
    subst h
    exact hd
  | cons w ws ih =>
    intro s s' tl tp hd hle hnd h
    simp only [nonDecreasing] at hnd
    simp only [promptLoop] at h
    split at h
    · rename_i s1 hw
      obtain ⟨hn, _, hd1⟩ := wake_cont_deadline G mblen echo s s1 w hw
      simp only [lastInput]
      by_cases h0 : w.nfds = 0
      · rw [if_pos h0, min_eq_left (by omega)] at hd1
        rw [if_neg (by omega)]
        exact ih s1 s' tl w.now (by rw [hd1, hd]) (by omega) hnd.2 h
      · rw [if_neg h0] at hd1
        rw [if_pos (by omega)]
        exact ih s1 s' w.now w.now hd1 (le_refl _) hnd.2 h
    · simp at h
    · simp at h

theorem handleKeyCalls_no_timeout (s : St) : Call.logTimeout ∉ handleKeyCalls s := by
  unfold handleKeyCalls
  simp only
  split_ifs <;> decide

/-- C20. Timeout trigger.  When the clock readings do not decrease, the
deadline at every point of a run is the reading at the most recent wake-up
at which input was ready (the reading at the start of the prompt if there was
none) plus `prompt_timeout`.  A wake-up (whose `select` did not fail) takes
the `AUTH_TIMEOUT hit` exit exactly when its reading is strictly greater than
the deadline; the prompt then ends with status 0, `read` is not called and
the state is as it was. -/
theorem timeout_trigger (G : Settings) (mblen : List Nat → Int) (echo : Bool) (priv0 : Priv)
    (now0 : Int) :
    (∀ (events : List Wakeup) (rand : List Nat) (s : St), nonDecreasing now0 events →
      Prompt G mblen echo priv0 now0 events rand = .collecting s →
      s.deadline = lastInput now0 events + G.prompt_timeout) ∧
    (∀ (s : St) (w : Wakeup), 0 ≤ w.nfds →
      (Call.logTimeout ∈ wakeCalls G s w ↔ s.deadline < w.now) ∧
      (s.deadline < w.now →
        wake G mblen echo s w = .exit 0 none s ∧ wakeCalls G s w = [.logTimeout] ∧
        Call.read ∉ wakeCalls G s w)) := by
  constructor
  · intro events rand s hnd h
    exact promptLoop_deadline G mblen echo events _ s now0 now0
      (promptStart_frame G mblen echo priv0 now0 rand).2.2.2.1 (le_refl _) hnd h
  · intro s w hn
    constructor
    · constructor
      · intro hmem
        by_contra hlt
        unfold wakeCalls at hmem
        rw [if_neg (by omega), if_neg (by omega)] at hmem
        simp only at hmem
        split_ifs at hmem
        all_goals first
          | exact absurd hmem (by decide)
          | (rcases List.mem_cons.mp hmem with h | h
             · exact absurd h (by decide)
             · exact handleKeyCalls_no_timeout _ h)
      · intro hlt
        unfold wakeCalls
        rw [if_neg (by omega), if_pos (by omega)]
        decide
    · intro hlt
      refine ⟨?_, ?_, ?_⟩
      · unfold wake
        rw [if_neg (by omega), if_pos (by omega)]
      · unfold wakeCalls
        rw [if_neg (by omega), if_pos (by omega)]
      · unfold wakeCalls
        rw [if_neg (by omega), if_pos (by omega)]
        decide

/-- Witness of C20: after `"hunter2"` typed at seconds 1 to 7 and a blink at
second 9 the deadline is 7 + 300; a wake-up at second 301 in a state whose
deadline is 300 takes the timeout exit. -/
theorem timeout_trigger_witness :
    nonDecreasing 0 hunter2Blink ∧
    (∃ s, Prompt exampleSettings mblenUtf8 false zeroPriv 0 hunter2Blink exampleRand
        = .collecting s ∧
      s.deadline = lastInput 0 hunter2Blink + exampleSettings.prompt_timeout ∧
      s.deadline = 307) ∧
    0 ≤ (key 301 0x61).nfds ∧ twoCharState.deadline < (key 301 0x61).now ∧
    (wake exampleSettings mblenUtf8 false twoCharState (key 301 0x61)
        = .exit 0 none twoCharState ∧
      wakeCalls exampleSettings twoCharState (key 301 0x61) = [.logTimeout] ∧
      Call.read ∉ wakeCalls exampleSettings twoCharState (key 301 0x61)) :=
  ⟨by decide,
    ⟨_, rfl, (timeout_trigger exampleSettings mblenUtf8 false zeroPriv 0).1 hunter2Blink
      exampleRand _ (by decide) rfl, rfl⟩,
    by decide, by decide,
    ((timeout_trigger exampleSettings mblenUtf8 false zeroPriv 0).2 twoCharState
      (key 301 0x61) (by decide)).2 (by decide)⟩

/-! ## Clipping the window -/

/-- What the clipping of `CreateOrUpdatePerMonitorWindow` does achieve: the
rectangle does not pass the right and bottom edges of the monitor, and its
corner is not left of or above the origin of the screen. -/
theorem CreateOrUpdatePerMonitorWindow_edges (monitor : Monitor)
    (region_w region_h x_offset y_offset : Int) :
    (CreateOrUpdatePerMonitorWindow monitor region_w region_h x_offset y_offset).1
        + (CreateOrUpdatePerMonitorWindow monitor region_w region_h x_offset y_offset).2.2.1
      ≤ monitor.x + monitor.width ∧
    (CreateOrUpdatePerMonitorWindow monitor region_w region_h x_offset y_offset).2.1
        + (CreateOrUpdatePerMonitorWindow monitor region_w region_h x_offset y_offset).2.2.2
      ≤ monitor.y + monitor.height ∧
    0 ≤ (CreateOrUpdatePerMonitorWindow monitor region_w region_h x_offset y_offset).1 ∧
    0 ≤ (CreateOrUpdatePerMonitorWindow monitor region_w region_h x_offset y_offset).2.1 := by
  unfold CreateOrUpdatePerMonitorWindow
  simp only
  refine ⟨?_, ?_, ?_, ?_⟩ <;> split_ifs <;> omega

/-- C22 (the code at the failing input). On a monitor at x = 1920 that is
1280 wide, a region 1400 wide is given the window rectangle x = 1860,
w = 1340: its left edge is 60 left of the monitor, because the left and top
edges are clipped against 0 and not against `monitor->x` and `monitor->y`. -/
theorem CreateOrUpdatePerMonitorWindow_left_of_monitor :
    CreateOrUpdatePerMonitorWindow secondMonitor 1400 100 0 0 = (1860, 462, 1340, 100) ∧
    (CreateOrUpdatePerMonitorWindow secondMonitor 1400 100 0 0).1 < secondMonitor.x := by
  decide

/-! ## The bounds of the display buffer -/

/-- The count of the masked display never exceeds `pwlen`, whatever `mblen`
answers. -/
theorem countChars_le (mblen : List Nat → Int) (pwbuf : Nat → Nat) (pwlen : Nat) :
    ∀ fuel pos displaylen len, displaylen ≤ pwlen → (pos < pwlen → displaylen ≤ pos) →
      (countChars mblen pwbuf pwlen fuel pos displaylen len).2.1 ≤ pwlen := by
  intro fuel
  induction fuel with
  | zero => intro pos displaylen len h _; exact h
  | succ fuel ih =>
    intro pos displaylen len h hp
    simp only [countChars]
    split_ifs with h1 h2
    · have := hp h1
      show displaylen + 1 ≤ pwlen
      omega
    · have := hp h1
      exact ih _ _ _ (by omega) (fun _ => by omega)
    · exact h

/-- In the echo, hidden, paranoid and masked modes `render` changes nothing
at or beyond index `DISPLAYBUF_SIZE`, for every state with `pwlen ≤ 256` and
marker in 0..31 and both blink phases: every store is inside the array. -/
theorem render_in_bounds (G : Settings) (mblen : List Nat → Int) (echo blink : Bool) (p : Priv)
    (hmode : echo = true ∨ G.hide_password_completely = true ∨ G.disco = false)
    (hlen : p.pwlen ≤ PWBUF_SIZE) (hm : p.displaymarker ≤ 31) :
    ∀ i, DISPLAYBUF_SIZE ≤ i → (render G mblen echo blink p).displaybuf i = p.displaybuf i := by
  intro i hi
  have hcount := countChars_le mblen p.pwbuf p.pwlen p.pwlen 0 0 p.len (Nat.zero_le _)
    (fun _ => Nat.le_refl _)
  unfold DISPLAYBUF_SIZE at hi
  unfold PWBUF_SIZE at hi hlen
  unfold render
  by_cases he : echo = true
  · rw [if_pos he]
    simp only [store]
    split_ifs <;> first | rfl | omega | (unfold memcpy; rw [if_neg (by omega)])
  · rw [if_neg he]
    by_cases hh : G.hide_password_completely = true
    · rw [if_pos hh]
      simp only [store]
      rw [if_neg (by omega)]
    · rw [if_neg hh]
      have hd : G.disco = false := by
        rcases hmode with h | h | h
        · exact absurd h he
        · exact absurd h hh
        · exact h
      rw [if_neg (by simp [hd])]
      by_cases hp : G.paranoid_password = true
      · rw [if_pos hp]
        simp only [store, memset, PARANOID_PASSWORD_LENGTH_eq]
        rw [if_neg (by omega), if_neg (by omega), if_neg (by omega)]
      · rw [if_neg hp]
        simp only [store, memset]
        rw [if_neg (by omega), if_neg (by omega), if_neg (by omega)]

/-- C21 (the code at the failing input). In disco mode `render` stores the
terminating NUL at index 1505 of `displaybuf`, which has `DISPLAYBUF_SIZE = 258`
elements: the byte AA that lay 1247 bytes past the end of the array is
overwritten with 0, for a state with `pwlen = 1` and the marker at 7. -/
theorem render_disco_out_of_bounds :
    garbagePriv.pwlen ≤ PWBUF_SIZE ∧ garbagePriv.displaymarker ≤ 31 ∧
    DISPLAYBUF_SIZE = 258 ∧
    (render discoSettings mblenUtf8 false false garbagePriv).displaylen = 1505 ∧
    garbagePriv.displaybuf 1505 = 0xAA ∧
    (render discoSettings mblenUtf8 false false garbagePriv).displaybuf 1505 = 0 := by
  refine ⟨by decide, by decide, rfl, rfl, rfl, rfl⟩

/-! ## Invariants of the prompt loop -/

theorem handleKey_sound (mblen : List Nat → Int) (s s' : St)
    (h : handleKey mblen s = .cont s') (hJ : Sound s) : Sound s' := by
  have hskip := backwardSkip_prevpos_le mblen s.priv.pwbuf s.priv.pwlen s.priv.pwlen 0 0
    s.priv.len (Nat.zero_le _)
  obtain ⟨hm, hp, hb⟩ := hJ
  unfold handleKey at h
  simp only at h
  generalize backwardSkip mblen s.priv.pwbuf s.priv.pwlen s.priv.pwlen 0 0 s.priv.len = r
    at h hskip
  split_ifs at h with h1 h2 h3 h4 h5 h6 h7 h8 h9 h10
  · -- Backspace that empties the buffer
    simp only [Step.cont.injEq] at h
    subst h
    refine ⟨Nat.zero_le _, fun hpos => ?_, fun i hi => ?_⟩
    · exact absurd hpos (by show ¬ 0 < r.2.1; omega)
    · exact absurd hi (by show ¬ i < r.2.1; omega)
  · -- Backspace that leaves a non-empty buffer
    split at h
    · simp at h
    · rename_i s1 hbm
      simp only [Step.cont.injEq] at h
      obtain ⟨p, rs, hbump, hs1⟩ := bumpMarker_some _ _ hbm
      have hp1 := BumpDisplayMarker_spec _ _ _ _ hbump
      subst hs1
      subst h
      refine ⟨?_, fun _ => ?_, fun i hi => ?_⟩
      · show p.toNat ≤ 31
        omega
      · show 1 ≤ p.toNat
        omega
      · exact hb i (by have : i < r.2.1 := hi; omega)
  · -- Backspace that removes nothing
    simp only [Step.cont.injEq] at h
    subst h
    have he : r.2.1 = s.priv.pwlen := by simpa using h2
    refine ⟨hm, fun hpos => hp (by have : 0 < r.2.1 := hpos; omega), fun i hi => ?_⟩
    exact hb i (by have : i < r.2.1 := hi; omega)
  · -- Ctrl-A
    simp only [Step.cont.injEq] at h
    subst h
    exact ⟨hm, fun hpos => absurd hpos (Nat.lt_irrefl 0),
      fun i hi => absurd hi (Nat.not_lt_zero i)⟩
  · -- Ctrl-S
    simp only [Step.cont.injEq] at h
    subst h
    exact ⟨hm, hp, hb⟩
  · -- Ctrl-U
    simp only [Step.cont.injEq] at h
    subst h
    exact ⟨hm, fun hpos => absurd hpos (Nat.lt_irrefl 0),
      fun i hi => absurd hi (Nat.not_lt_zero i)⟩
  · -- another control byte
    simp only [Step.cont.injEq] at h
    subst h
    exact ⟨hm, hp, hb⟩
  · -- a byte that is appended
    split at h
    · simp at h
    · rename_i s1 hbm
      simp only [Step.cont.injEq] at h
      obtain ⟨p, rs, hbump, hs1⟩ := bumpMarker_some _ _ hbm
      have hp1 := BumpDisplayMarker_spec _ _ _ _ hbump
      subst hs1
      subst h
      refine ⟨?_, fun _ => ?_, fun i hi => ?_⟩
      · show p.toNat ≤ 31
        omega
      · show 1 ≤ p.toNat
        omega
      · show 0x20 ≤ store s.priv.pwbuf s.priv.pwlen s.priv.inputbuf i ∧
          store s.priv.pwbuf s.priv.pwlen s.priv.inputbuf i ≠ 0x7F
        have hi' : i < s.priv.pwlen + 1 := hi
        unfold store
        by_cases hil : i = s.priv.pwlen
        · rw [if_pos hil]
          constructor
          · omega
          · intro hc; exact h1 (Or.inr hc)
        · rw [if_neg hil]
          exact hb i (by omega)

/-- Every round of the inner loop that does not end the prompt keeps the
invariant `Sound`. -/
theorem wake_sound (G : Settings) (mblen : List Nat → Int) (echo : Bool) (s s' : St)
    (w : Wakeup) (hJ : Sound s) (h : wake G mblen echo s w = .cont s') : Sound s' := by
  unfold wake at h
  simp only at h
  split_ifs at h with h1 h2 h3 h4 h5 h6
  all_goals first
    | (simp only [Step.cont.injEq] at h
       subst h
       unfold Sound
       simp only [redraw, (render_frame G mblen echo _ _).1, (render_frame G mblen echo _ _).2.1,
         (render_frame G mblen echo _ _).2.2.1]
       exact hJ)
    | exact handleKey_sound mblen _ _ h hJ

theorem promptStart_sound (G : Settings) (mblen : List Nat → Int) (echo : Bool) (priv0 : Priv)
    (now0 : Int) (rand : List Nat) : Sound (promptStart G mblen echo priv0 now0 rand) := by
  obtain ⟨_, h2, h3, _, _⟩ := promptStart_frame G mblen echo priv0 now0 rand
  unfold Sound
  rw [h2, h3]
  exact ⟨Nat.zero_le _, fun h => absurd h (Nat.lt_irrefl 0), fun i hi => absurd hi (Nat.not_lt_zero i)⟩

/-- C23. Marker invariant: at every point a run of `Prompt` reaches, the
marker is in 0..31, and in 1..31 whenever the buffer is not empty; so the
marker is 0 only while the buffer is empty. -/
theorem marker_invariant (G : Settings) (mblen : List Nat → Int) (echo : Bool) (priv0 : Priv)
    (now0 : Int) (events : List Wakeup) (rand : List Nat) (s : St)
    (h : Prompt G mblen echo priv0 now0 events rand = .collecting s) :
    s.priv.displaymarker ≤ 31 ∧ (0 < s.priv.pwlen → 1 ≤ s.priv.displaymarker) ∧
    (s.priv.displaymarker = 0 → s.priv.pwlen = 0) := by
  have hJ := promptLoop_invariant G mblen echo Sound
    (fun s w s' hI hw => wake_sound G mblen echo s s' w hI hw) events _ s
    (promptStart_sound G mblen echo priv0 now0 rand) h
  exact ⟨hJ.1, hJ.2.1, fun h0 => by have := hJ.2.1; omega⟩

/-- Witness of C23: after `"hunter2"` and a blink the marker is 31, with
seven bytes in the buffer. -/
theorem marker_invariant_witness :
    ∃ s, Prompt exampleSettings mblenUtf8 false zeroPriv 0 hunter2Blink exampleRand
        = .collecting s ∧
      s.priv.pwlen = 7 ∧ s.priv.displaymarker = 31 ∧
      (s.priv.displaymarker ≤ 31 ∧ (0 < s.priv.pwlen → 1 ≤ s.priv.displaymarker) ∧
        (s.priv.displaymarker = 0 → s.priv.pwlen = 0)) :=
  ⟨_, rfl, rfl, rfl,
    marker_invariant exampleSettings mblenUtf8 false zeroPriv 0 hunter2Blink exampleRand _ rfl⟩

/-- C24. No control bytes in a secret: at every point a run of `Prompt`
reaches, no byte of `pwbuf` below `pwlen` is in `0x00..0x1F` or equal to `0x7F`.
Hence a response `Prompt` hands back is its C string followed by the one NUL,
the C string has the length `pwlen` had when Return arrived and holds no
control byte, and `explicit_bzero(response, strlen(response))` leaves only
zero bytes. -/
theorem no_control_bytes (G : Settings) (mblen : List Nat → Int) (echo : Bool) (priv0 : Priv)
    (now0 : Int) :
    (∀ (events : List Wakeup) (rand : List Nat) (s : St),
      Prompt G mblen echo priv0 now0 events rand = .collecting s →
      ∀ i, i < s.priv.pwlen → 0x20 ≤ s.priv.pwbuf i ∧ s.priv.pwbuf i ≠ 0x7F) ∧
    (∀ (events : List Wakeup) (rand : List Nat) (status : Int) (r : List Nat) (priv : Priv)
        (rest : List Wakeup) (rand' : List Nat),
      Prompt G mblen echo priv0 now0 events rand = .returned status (some r) priv rest rand' →
      (∀ b ∈ cstr r, 0x20 ≤ b ∧ b ≠ 0x7F) ∧ r = cstr r ++ [0] ∧
      (∃ pre w s, events = pre ++ w :: rest ∧
        Prompt G mblen echo priv0 now0 pre rand = .collecting s ∧
        (cstr r).length = s.priv.pwlen) ∧
      ∀ b ∈ explicit_bzero r (cstr r).length, b = 0) := by
  have hinv : ∀ (events : List Wakeup) (rand : List Nat) (s : St),
      Prompt G mblen echo priv0 now0 events rand = .collecting s → Sound s := by
    intro events rand s h
    exact promptLoop_invariant G mblen echo Sound
      (fun s w s' hI hw => wake_sound G mblen echo s s' w hI hw) events _ s
      (promptStart_sound G mblen echo priv0 now0 rand) h
  refine ⟨fun events rand s h => (hinv events rand s h).2.2, ?_⟩
  intro events rand status r priv rest rand' h
  obtain ⟨pre, w, s, s', he, hp, hx, _, _⟩ :=
    promptLoop_returned G mblen echo events _ _ _ _ _ _ h
  have hS := hinv pre rand s hp
  rcases wake_exit G mblen echo s s' w status (some r) hx with ⟨_, _, hr⟩ | ⟨_, _, hr⟩
  · simp only [Option.some.injEq] at hr
    have hnz : ∀ b ∈ bytes s.priv.pwbuf 0 s.priv.pwlen, 0x20 ≤ b ∧ b ≠ 0x7F := by
      intro b hb
      simp only [bytes, List.mem_map, List.mem_range] at hb
      obtain ⟨i, hi, hbi⟩ := hb
      rw [← hbi, Nat.zero_add]
      exact hS.2.2 i hi
    have hc : cstr r = bytes s.priv.pwbuf 0 s.priv.pwlen := by
      rw [hr]
      exact cstr_terminated _ (fun b hb => by have := (hnz b hb).1; omega)
    refine ⟨by rw [hc]; exact hnz, by rw [hc]; exact hr,
      ⟨pre, w, s, he, hp, by rw [hc, bytes_length]⟩, ?_⟩
    intro b hb
    rw [hc, bytes_length, hr] at hb
    unfold explicit_bzero at hb
    rw [List.drop_append_of_le_length (by rw [bytes_length])] at hb
    simp only [List.mem_append, List.mem_replicate] at hb
    rcases hb with ⟨_, h0⟩ | hb
    · exact h0
    · have hd : List.drop s.priv.pwlen (bytes s.priv.pwbuf 0 s.priv.pwlen) = [] :=
        List.drop_eq_nil_of_le (by rw [bytes_length])
      rw [hd] at hb
      simpa using hb
  · cases hr

/-- Witness of C24: typing `"hunter2\n"`. -/
theorem no_control_bytes_witness :
    ∃ priv rand',
      Prompt exampleSettings mblenUtf8 false zeroPriv 0 hunter2Return exampleRand
        = .returned 1 (some (hunter2 ++ [0])) priv [] rand' ∧
      ((∀ b ∈ cstr (hunter2 ++ [0]), 0x20 ≤ b ∧ b ≠ 0x7F) ∧
        hunter2 ++ [0] = cstr (hunter2 ++ [0]) ++ [0] ∧
        (∃ pre w s, hunter2Return = pre ++ w :: [] ∧
          Prompt exampleSettings mblenUtf8 false zeroPriv 0 pre exampleRand = .collecting s ∧
          (cstr (hunter2 ++ [0])).length = s.priv.pwlen) ∧
        ∀ b ∈ explicit_bzero (hunter2 ++ [0]) (cstr (hunter2 ++ [0])).length, b = 0) :=
  ⟨_, _, rfl,
    (no_control_bytes exampleSettings mblenUtf8 false zeroPriv 0).2 hunter2Return exampleRand
      1 (hunter2 ++ [0]) _ [] _ rfl⟩

/-! ## Progress of Backspace -/

theorem backwardSkip_prevpos_lt (mblen : List Nat → Int) (pwbuf : Nat → Nat) (pwlen : Nat) :
    ∀ fuel pos prevpos len, prevpos < pwlen →
      (backwardSkip mblen pwbuf pwlen fuel pos prevpos len).2.1 < pwlen := by
  intro fuel
  induction fuel with
  | zero => intro pos prevpos len h; exact h
  | succ fuel ih =>
    intro pos prevpos len h
    simp only [backwardSkip]
    split_ifs with h1 h2
    · exact h1
    · exact ih _ _ _ h1
    · exact h

/-- With `pwlen - pos` rounds the backward skip has left its loop: the loop
condition is false or the `break` was taken. -/
theorem backwardSkip_exited (mblen : List Nat → Int) (pwbuf : Nat → Nat) (pwlen : Nat) :
    ∀ fuel pos prevpos len, pwlen - pos ≤ fuel →
      ¬ (backwardSkip mblen pwbuf pwlen fuel pos prevpos len).1 < pwlen ∨
      (backwardSkip mblen pwbuf pwlen fuel pos prevpos len).2.2 ≤ 0 := by
  intro fuel
  induction fuel with
  | zero =>
    intro pos prevpos len h
    left
    show ¬ pos < pwlen
    omega
  | succ fuel ih =>
    intro pos prevpos len h
    simp only [backwardSkip]
    split_ifs with h1 h2
    · right; exact h2
    · exact ih _ _ _ (by omega)
    · left; exact h1

/-- C25. Backspace always makes progress: on a non-empty buffer of arbitrary
bytes and for every behaviour of `mblen`, the backward skip leaves its loop
within `pwlen` rounds (more rounds change nothing), and a Backspace/Delete
byte read in time never ends the prompt; when the prompt goes on the new
`pwlen` is strictly smaller and `pwbuf` is untouched; and it does go on
whenever the `rand()` outputs let the marker bump end. -/
theorem backspace_progress (G : Settings) (mblen : List Nat → Int) (echo : Bool) (s : St)
    (w : Wakeup) (hne : 0 < s.priv.pwlen)
    (hn : 0 < w.nfds) (ht : w.now ≤ s.deadline) (hr : 0 < w.nread)
    (hk : w.byte % 256 = 0x08 ∨ w.byte % 256 = 0x7F) :
    ((¬ (backwardSkip mblen s.priv.pwbuf s.priv.pwlen s.priv.pwlen 0 0 s.priv.len).1
          < s.priv.pwlen ∨
        (backwardSkip mblen s.priv.pwbuf s.priv.pwlen s.priv.pwlen 0 0 s.priv.len).2.2 ≤ 0) ∧
      ∀ k, backwardSkip mblen s.priv.pwbuf s.priv.pwlen (s.priv.pwlen + k) 0 0 s.priv.len
        = backwardSkip mblen s.priv.pwbuf s.priv.pwlen s.priv.pwlen 0 0 s.priv.len) ∧
    (∀ status response s', wake G mblen echo s w ≠ .exit status response s') ∧
    (∀ s', wake G mblen echo s w = .cont s' →
      s'.priv.pwlen < s.priv.pwlen ∧ s'.priv.pwbuf = s.priv.pwbuf) ∧
    ((BumpDisplayMarker (s.priv.displaymarker : Int) s.rand).isSome →
      ∃ s', wake G mblen echo s w = .cont s') := by
  refine ⟨⟨backwardSkip_exited mblen _ _ _ 0 0 _ (by omega),
    fun k => backwardSkip_enough mblen _ _ k _ 0 0 _ (by omega)⟩, ?_⟩
  have hlt := backwardSkip_prevpos_lt mblen s.priv.pwbuf s.priv.pwlen s.priv.pwlen 0 0
    s.priv.len hne
  rw [wake_backspace G mblen echo s w hn ht hr]
  unfold handleKey
  simp only
  rw [if_pos hk]
  generalize backwardSkip mblen s.priv.pwbuf s.priv.pwlen s.priv.pwlen 0 0 s.priv.len = r at hlt ⊢
  rw [if_pos (by omega)]
  by_cases h2 : r.2.1 = 0
  · rw [if_pos h2]
    refine ⟨(fun _ _ _ h => by cases h), fun s' hs' => ?_, fun _ => ⟨_, rfl⟩⟩
    simp only [Step.cont.injEq] at hs'
    subst hs'
    exact ⟨hlt, rfl⟩
  · rw [if_neg h2]
    simp only [bumpMarker]
    cases hb : BumpDisplayMarker (s.priv.displaymarker : Int) s.rand with
    | none =>
      exact ⟨(fun _ _ _ h => by cases h), (fun s' hs' => by cases hs'), fun h => by simp at h⟩
    | some pr =>
      obtain ⟨p, rs⟩ := pr
      refine ⟨(fun _ _ _ h => by cases h), fun s' hs' => ?_, fun _ => ⟨_, rfl⟩⟩
      simp only [Step.cont.injEq] at hs'
      subst hs'
      exact ⟨hlt, rfl⟩

/-- Witness of C25: Backspace on the buffer `"a"` + C3 (a truncated
character) leaves `"a"`. -/
theorem backspace_progress_witness :
    0 < truncatedState.priv.pwlen ∧ 0 < (key 1 0x08).nfds ∧
    (key 1 0x08).now ≤ truncatedState.deadline ∧ 0 < (key 1 0x08).nread ∧
    ((key 1 0x08).byte % 256 = 0x08 ∨ (key 1 0x08).byte % 256 = 0x7F) ∧
    (BumpDisplayMarker (truncatedState.priv.displaymarker : Int) truncatedState.rand).isSome ∧
    ∃ s', wake exampleSettings mblenUtf8 false truncatedState (key 1 0x08) = .cont s' ∧
      s'.priv.pwlen = 1 ∧
      (s'.priv.pwlen < truncatedState.priv.pwlen ∧ s'.priv.pwbuf = truncatedState.priv.pwbuf) :=
  ⟨by decide, by decide, by decide, by decide, by decide, by decide, _, rfl, rfl,
    (backspace_progress exampleSettings mblenUtf8 false truncatedState (key 1 0x08)
      (by decide) (by decide) (by decide) (by decide) (by decide)).2.2.1 _ rfl⟩

/-! ## The final `memset` is a dead store -/

end XSecureLock
